import Mathlib

/-!
# moodle_tryouts: the login flow of `main.go`

A shallow embedding of `login`, `getUserID`, `renewToken` and `logErr` from
`src/main.go`, with explicit state passing.

* The settings file lives in `World.files`; every call that leaves the program
  (`ioutil.ReadFile`, `http.Client.Do`, `MoodleApi.GetSiteInfo`,
  `ioutil.WriteFile`) appends one `Event` with its arguments and its result to
  `World.trace`.
* Code that is not part of the repository (encoding/json, net/url, net/http,
  the moodleAPI client, the remote server, the file system's write faults) is
  a field of `Env`.  The remote side may answer differently from call to call:
  its answers depend on a state of type `σ` that every call may change.
* `log.Fatalln` ends the process (`os.Exit(1)`); a function that reaches it has
  outcome `Outcome.fatal`.  The `return` statements that follow a
  `log.Fatalln` in the source are never reached.
* `log.Println` / `log.Printf` lines only print and are left out.
-/

namespace MoodleTryouts

/-- A Go `error` value that is not nil, by its message. -/
abbrev Err := String

/-- The struct `Settings` (main.go 18-23). -/
structure Settings where
  baseURL : String
  username : String
  password : String
  token : String
deriving DecidableEq, Repr

/-- The struct `Token` (main.go 26-29). -/
structure Token where
  token : String
  privateToken : String
deriving DecidableEq, Repr

/-- The client `moodleAPI.NewMoodleApi(baseURL, token)` builds: it is bound to
the base URL and the token it was made from. -/
structure MoodleApi where
  baseURL : String
  token : String
deriving DecidableEq, Repr

/-- The constructor `moodleAPI.NewMoodleApi`. -/
def NewMoodleApi (baseURL token : String) : MoodleApi :=
  { baseURL := baseURL, token := token }

/-- The type `url.Values`, as the list of its key/value pairs. -/
abbrev Values := List (String × String)

/-- The method `url.Values.Set`: the key gets exactly this value. -/
def Values.set (data : Values) (key value : String) : Values :=
  data.filter (fun kv => kv.1 ≠ key) ++ [(key, value)]

/-- An `http.Request` as `renewToken` builds it. -/
structure Request where
  method : String
  url : String
  body : String
  header : List (String × String)
deriving DecidableEq, Repr

/-- The method `http.Header.Add`. -/
def Request.headerAdd (req : Request) (key value : String) : Request :=
  { req with header := req.header ++ [(key, value)] }

/-- An `http.Response`: its status code, and what `ioutil.ReadAll(resp.Body)`
returns (the bytes read and the error). -/
structure Response where
  statusCode : Nat
  readAll : String × Option Err
deriving DecidableEq, Repr

/-- What a failed `ioutil.WriteFile` leaves behind: the error it returns and
what a later read of the file would give. -/
structure WriteFault where
  err : Err
  left : String ⊕ Err
deriving DecidableEq, Repr

/-- One call that leaves the program, with its arguments and its result. -/
inductive Event where
  | readFile (path : String)
  | clientDo (timeoutSeconds : Nat) (req : Request) (resp : Response ⊕ Err)
  | getSiteInfo (api : MoodleApi) (userID : Int) (err : Option Err)
  | writeFile (path data : String) (perm : Nat) (err : Option Err)
deriving DecidableEq, Repr

/-- The state outside the program: the files (`Sum.inl data` for a path that
reads as `data`, `Sum.inr e` for a path whose read fails with `e` and returns
no bytes), the state of the remote side, and the calls made so far, oldest
first. -/
structure World (σ : Type) where
  files : String → String ⊕ Err
  remote : σ
  trace : List Event

/-- The code outside the repository that `login` and `renewToken` call. -/
structure Env (σ : Type) where
  /-- The call `json.Unmarshal(data, &settings)` on a zero `Settings`: the
  value left in `settings` and the error returned. -/
  jsonUnmarshalSettings : String → Settings × Option Err
  /-- The call `json.Unmarshal(body, &token)` on a zero `Token`. -/
  jsonUnmarshalToken : String → Token × Option Err
  /-- The call `json.MarshalIndent(settings, pfx, indent)`: the bytes. -/
  jsonMarshalIndent : Settings → String → String → String
  /-- The method `url.Values.Encode`. -/
  valuesEncode : Values → String
  /-- The error of `http.NewRequest(method, url, body)`, if it has one. -/
  newRequestErr : String → String → Option Err
  /-- The method `http.Client.Do` of a client with the given timeout. -/
  clientDo : σ → Nat → Request → (Response ⊕ Err) × σ
  /-- The method `MoodleApi.GetSiteInfo`: its fourth result (the user id) and
  its error. -/
  getSiteInfo : σ → MoodleApi → (Int × Option Err) × σ
  /-- Whether `ioutil.WriteFile(path, data, perm)` fails, and how. -/
  writeFault : σ → String → String → Nat → Option WriteFault × σ

/-- How a call of a function with a Go result `(T, error)` ends. -/
inductive Outcome (α : Type) where
  /-- It returned `(a, nil)`. -/
  | ok (a : α)
  /-- It returned the zero value and the error `e`. -/
  | err (e : Err)
  /-- It called `log.Fatalln(e)`: the process has exited. -/
  | fatal (e : Err)
deriving DecidableEq, Repr

variable {σ : Type}

/-- The call `ioutil.ReadFile(path)`: the bytes and the error. -/
def ioutilReadFile (path : String) (w : World σ) : (String × Option Err) × World σ :=
  (match w.files path with
   | Sum.inl data => (data, none)
   | Sum.inr e => ("", some e),
   { w with trace := w.trace ++ [Event.readFile path] })

/-- The call `ioutil.WriteFile(path, data, perm)`: the error.  When it
succeeds the file holds `data`; when it fails the file is what the fault
left (untouched, emptied, cut short). -/
def ioutilWriteFile (env : Env σ) (path data : String) (perm : Nat) (w : World σ) :
    Option Err × World σ :=
  let r := env.writeFault w.remote path data perm
  match r.1 with
  | none =>
    (none,
     { files := fun p => if p = path then Sum.inl data else w.files p,
       remote := r.2,
       trace := w.trace ++ [Event.writeFile path data perm none] })
  | some f =>
    (some f.err,
     { files := fun p => if p = path then f.left else w.files p,
       remote := r.2,
       trace := w.trace ++ [Event.writeFile path data perm (some f.err)] })

/-- The call `client.Do(req)` of the `http.Client` with `Timeout: time.Second * 10`. -/
def httpClientDo (env : Env σ) (timeoutSeconds : Nat) (req : Request) (w : World σ) :
    (Response ⊕ Err) × World σ :=
  let r := env.clientDo w.remote timeoutSeconds req
  (r.1, { w with remote := r.2,
                 trace := w.trace ++ [Event.clientDo timeoutSeconds req r.1] })

/-- The function `logErr` (main.go 59-63). -/
def logErr (err : Option Err) : Outcome Unit :=
  match err with
  | some e => Outcome.fatal e
  | none => Outcome.ok ()

/-- The function `getUserID` (main.go 96-102). -/
def getUserID (env : Env σ) (api : MoodleApi) (w : World σ) : Outcome Int × World σ :=
  -- _, _, _, userID, err := api.GetSiteInfo()
  let r := env.getSiteInfo w.remote api
  -- if err != nil return 0, err; return userID, nil
  (match r.1.2 with
   | some err => Outcome.err err
   | none => Outcome.ok r.1.1,
   { w with remote := r.2,
            trace := w.trace ++ [Event.getSiteInfo api r.1.1 r.1.2] })

/-- The function `renewToken` (main.go 104-175). -/
def renewToken (env : Env σ) (settingsPath : String) (w : World σ) :
    Outcome String × World σ :=
  -- byteValue, _ := ioutil.ReadFile(settingsPath)
  let rd := ioutilReadFile settingsPath w
  let byteValue := rd.1.1
  -- var settings Settings; json.Unmarshal(byteValue, &settings)
  let settings := (env.jsonUnmarshalSettings byteValue).1
  let apiURL := settings.baseURL ++ "login/token.php"
  let data : Values := []
  let data := data.set "username" settings.username
  let data := data.set "password" settings.password
  let data := data.set "service" "moodle_mobile_app"
  -- req, err := http.NewRequest("POST", apiURL, strings.NewReader(data.Encode()))
  match env.newRequestErr "POST" apiURL with
  | some err => (Outcome.fatal err, rd.2)
  | none =>
    let req : Request :=
      { method := "POST", url := apiURL, body := env.valuesEncode data, header := [] }
    let req := req.headerAdd "User-Agent" "Moodle Downloader/0.0.1"
    let req := req.headerAdd "Content-Type" "application/x-www-form-urlencoded"
    -- resp, err := client.Do(req)
    let sent := httpClientDo env 10 req rd.2
    match sent.1 with
    | Sum.inr err => (Outcome.fatal err, sent.2)
    | Sum.inl resp =>
      -- body, err := ioutil.ReadAll(resp.Body)
      match resp.readAll.2 with
      | some err => (Outcome.fatal err, sent.2)
      | none =>
        let body := resp.readAll.1
        -- var token Token; err = json.Unmarshal(body, &token)
        let dec := env.jsonUnmarshalToken body
        match dec.2 with
        | some err => (Outcome.fatal err, sent.2)
        | none =>
          let token := dec.1
          let settings := { settings with token := token.token }
          let api := NewMoodleApi settings.baseURL settings.token
          let chk := getUserID env api sent.2
          match chk.1 with
          | Outcome.ok _ =>
            -- file, _ := json.MarshalIndent(settings, "", " ")
            let file := env.jsonMarshalIndent settings "" " "
            let wr := ioutilWriteFile env settingsPath file 0o600 chk.2
            match logErr wr.1 with
            | Outcome.ok _ => (Outcome.ok settings.token, wr.2)
            | Outcome.err e => (Outcome.fatal e, wr.2)
            | Outcome.fatal e => (Outcome.fatal e, wr.2)
          | Outcome.err err => (Outcome.err err, chk.2)
          | Outcome.fatal err => (Outcome.fatal err, chk.2)

/-- The end of `login` (main.go 84-93), reached when the cached token was
empty or did not validate. -/
def loginRenew (env : Env σ) (settingsPath : String) (settings : Settings) (w : World σ) :
    Outcome MoodleApi × World σ :=
  let r := renewToken env settingsPath w
  match r.1 with
  -- log.Fatalln(err)
  | Outcome.err err => (Outcome.fatal err, r.2)
  | Outcome.fatal err => (Outcome.fatal err, r.2)
  | Outcome.ok newToken =>
    let settings := { settings with token := newToken }
    (Outcome.ok (NewMoodleApi settings.baseURL settings.token), r.2)

/-- The function `login` (main.go 65-94). -/
def login (env : Env σ) (settingsPath : String) (w : World σ) :
    Outcome MoodleApi × World σ :=
  -- byteValue, _ := ioutil.ReadFile(settingsPath)
  let rd := ioutilReadFile settingsPath w
  let byteValue := rd.1.1
  -- var settings Settings; json.Unmarshal(byteValue, &settings)
  let settings := (env.jsonUnmarshalSettings byteValue).1
  if settings.token ≠ "" then
    let api := NewMoodleApi settings.baseURL settings.token
    let chk := getUserID env api rd.2
    match chk.1 with
    | Outcome.ok _ => (Outcome.ok api, chk.2)
    | _ => loginRenew env settingsPath settings chk.2
  else
    loginRenew env settingsPath settings rd.2

/-! ## A concrete run: one settings file, one remote site

Test doubles for the code outside the repository, used for the concrete runs
below.  The JSON codec is tabulated on the texts that occur in those runs,
with the values encoding/json gives for them. -/

/-- The example settings of the site `https://example.edu/`, with the given
cached token. -/
def exSettings (token : String) : Settings :=
  { baseURL := "https://example.edu/", username := "u", password := "p", token := token }

/-- The zero value of `Settings`. -/
def zeroSettings : Settings :=
  { baseURL := "", username := "", password := "", token := "" }

/-- The text `json.MarshalIndent(s, pfx, indent)` writes for a `Settings`
whose strings need no escaping. -/
def plainMarshalIndent (s : Settings) (pfx indent : String) : String :=
  "\x7b\n" ++ pfx ++ indent ++ "\"baseURL\": \"" ++ s.baseURL ++ "\",\n"
    ++ pfx ++ indent ++ "\"username\": \"" ++ s.username ++ "\",\n"
    ++ pfx ++ indent ++ "\"password\": \"" ++ s.password ++ "\",\n"
    ++ pfx ++ indent ++ "\"token\": \"" ++ s.token ++ "\"\n" ++ pfx ++ "\x7d"

/-- The settings file of `exSettings token`. -/
def exStore (token : String) : String :=
  plainMarshalIndent (exSettings token) "" " "

/-- A settings file whose `password` is a number: not of the Settings shape.
`json.Unmarshal` reports the mismatch and still fills the other fields. -/
def mistypedStore : String :=
  "\x7b\"baseURL\": \"https://example.edu/\", \"username\": \"u\", \"password\": 5, \"token\": \"abc123\"\x7d"

/-- The decoder `json.Unmarshal(data, &settings)` on the texts of the example. -/
def stubUnmarshalSettings (data : String) : Settings × Option Err :=
  if data = exStore "" then (exSettings "", none)
  else if data = exStore "abc123" then (exSettings "abc123", none)
  else if data = exStore "old" then (exSettings "old", none)
  else if data = "\x7b\x7d" then (zeroSettings, none)
  else if data = mistypedStore then
    ({ baseURL := "https://example.edu/", username := "u", password := "", token := "abc123" },
     some "json: cannot unmarshal number into Go struct field Settings.password of type string")
  else if data = "" then (zeroSettings, some "unexpected end of JSON input")
  else (zeroSettings, some "invalid character")

/-- The body of a response that carries the token `issued`. -/
def tokenBody (issued : String) : String :=
  "\x7b\"token\":\"" ++ issued ++ "\"\x7d"

/-- The decoder `json.Unmarshal(body, &token)` on the bodies of the example. -/
def stubUnmarshalToken (body : String) : Token × Option Err :=
  if body = tokenBody "abc123" then ({ token := "abc123", privateToken := "" }, none)
  else if body = tokenBody "bad" then ({ token := "bad", privateToken := "" }, none)
  else ({ token := "", privateToken := "" },
        some "invalid character '<' looking for beginning of value")

/-- Whether the first text comes strictly before the second, character by
character. -/
def charsBefore : List Char → List Char → Bool
  | [], [] => false
  | [], _ :: _ => true
  | _ :: _, [] => false
  | a :: as, b :: bs =>
    if a.toNat < b.toNat then true
    else if b.toNat < a.toNat then false
    else charsBefore as bs

/-- Insertion of a pair into a list sorted by key. -/
def insertByKey (kv : String × String) : Values → Values
  | [] => [kv]
  | x :: rest =>
    if charsBefore kv.1.data x.1.data then kv :: x :: rest else x :: insertByKey kv rest

/-- The method `url.Values.Encode` for keys and values that need no escaping:
`key=value` pairs sorted by key and joined by `&`. -/
def plainValuesEncode (data : Values) : String :=
  "&".intercalate ((data.foldr insertByKey []).map (fun kv => kv.1 ++ "=" ++ kv.2))

/-- The example environment.  The site answers a token request with status
`status` and the body `body`; `GetSiteInfo` accepts exactly the tokens `valid`
holds of; `fault` is how `ioutil.WriteFile` fails, if it does. -/
def stubEnv (status : Nat) (body : String) (valid : String → Bool)
    (fault : Option WriteFault) : Env Unit :=
  { jsonUnmarshalSettings := stubUnmarshalSettings
    jsonUnmarshalToken := stubUnmarshalToken
    jsonMarshalIndent := plainMarshalIndent
    valuesEncode := plainValuesEncode
    newRequestErr := fun _ _ => none
    clientDo := fun _ _ req =>
      if req.url = "https://example.edu/login/token.php" then
        (Sum.inl { statusCode := status, readAll := (body, none) }, ())
      else (Sum.inr "unsupported protocol scheme", ())
    getSiteInfo := fun _ api =>
      if api.baseURL = "https://example.edu/" ∧ valid api.token = true then ((42, none), ())
      else ((0, some "invalidtoken"), ())
    writeFault := fun _ _ _ _ => (fault, ()) }

/-- The site issues `abc123` and accepts it; the file can be written. -/
def envOK : Env Unit :=
  stubEnv 200 (tokenBody "abc123") (fun t => decide (t = "abc123")) none

/-- The site issues `bad` and accepts no token. -/
def envReject : Env Unit :=
  stubEnv 200 (tokenBody "bad") (fun _ => false) none

/-- The site issues `abc123` and accepts it; the file cannot be opened for
writing and stays what it was. -/
def envWriteFail : Env Unit :=
  stubEnv 200 (tokenBody "abc123") (fun t => decide (t = "abc123"))
    (some { err := "open settings.json: permission denied", left := Sum.inl (exStore "") })

/-- The site issues `abc123` and accepts it; the disk is full: the write
empties the file and fails. -/
def envDiskFull : Env Unit :=
  stubEnv 200 (tokenBody "abc123") (fun t => decide (t = "abc123"))
    (some { err := "write settings.json: no space left on device", left := Sum.inl "" })

/-- The site answers with status 500 and a body that carries `abc123`, which
it accepts. -/
def envStatus500 : Env Unit :=
  stubEnv 500 (tokenBody "abc123") (fun t => decide (t = "abc123")) none

/-- The site answers with status 502 and an HTML page. -/
def envBadGateway : Env Unit :=
  stubEnv 502 "<html>Bad Gateway</html>" (fun t => decide (t = "abc123")) none

/-- The example world: the one file `settings.json`, no calls made yet. -/
def exWorld (content : String ⊕ Err) : World Unit :=
  { files := fun p => if p = "settings.json" then content else Sum.inr "no such file or directory"
    remote := ()
    trace := [] }

/-- The request `renewToken` sends for the example settings. -/
def exRequest : Request :=
  { method := "POST"
    url := "https://example.edu/login/token.php"
    body := "password=p&service=moodle_mobile_app&username=u"
    header := [("User-Agent", "Moodle Downloader/0.0.1"),
               ("Content-Type", "application/x-www-form-urlencoded")] }

/-! ## Vocabulary of the statements -/

/-- The `Settings` value that `login` (main.go 68-72) and `renewToken`
(main.go 108-112) load from the file: the bytes `ioutil.ReadFile` returns,
decoded by `json.Unmarshal`, both errors dropped. -/
def loadSettings (env : Env σ) (settingsPath : String) (w : World σ) : Settings :=
  (env.jsonUnmarshalSettings (ioutilReadFile settingsPath w).1.1).1

/-- The token request that `renewToken` builds from a `Settings` value
(main.go 119-133). -/
def tokenRequest (env : Env σ) (settings : Settings) : Request :=
  { method := "POST"
    url := settings.baseURL ++ "login/token.php"
    body := env.valuesEncode
      [("username", settings.username), ("password", settings.password),
       ("service", "moodle_mobile_app")]
    header := [("User-Agent", "Moodle Downloader/0.0.1"),
               ("Content-Type", "application/x-www-form-urlencoded")] }

/-- Whether the event is a call of `ioutil.WriteFile`. -/
def Event.isWrite : Event → Bool
  | Event.writeFile _ _ _ _ => true
  | _ => false

/-- Whether the event is a token request (`client.Do`). -/
def Event.isTokenRequest : Event → Bool
  | Event.clientDo _ _ _ => true
  | _ => false

/-- Whether the event is a validation call (`GetSiteInfo`). -/
def Event.isValidation : Event → Bool
  | Event.getSiteInfo _ _ _ => true
  | _ => false

/-- The response with its status code replaced through `f`. -/
def Response.mapStatus (f : Nat → Nat) (resp : Response) : Response :=
  { resp with statusCode := f resp.statusCode }

/-- The environment in which every response to `client.Do` carries the status
code `f` gives for the one it had; everything else is unchanged. -/
def Env.mapStatus (env : Env σ) (f : Nat → Nat) : Env σ :=
  { env with
    clientDo := fun r t req =>
      (Sum.map (Response.mapStatus f) id (env.clientDo r t req).1, (env.clientDo r t req).2) }

/-- The event with the status code of its response, if it has one, replaced
through `f`. -/
def Event.mapStatus (f : Nat → Nat) : Event → Event
  | Event.clientDo t req resp => Event.clientDo t req (Sum.map (Response.mapStatus f) id resp)
  | ev => ev

/-- What `login` makes of the outcome of `renewToken` (main.go 86-93), for
the settings value `s` it holds. -/
def loginResult (s : Settings) : Outcome String → Outcome MoodleApi
  | Outcome.ok newToken => Outcome.ok (NewMoodleApi s.baseURL newToken)
  | Outcome.err e => Outcome.fatal e
  | Outcome.fatal e => Outcome.fatal e

/-- The runs of `renewToken`, path by path: from the world `w`, with `s` the
settings loaded from the file, the call ends with the given outcome in the
given world. -/
inductive RenewRun (env : Env σ) (p : String) (s : Settings) (w : World σ) :
    Outcome String → World σ → Prop
  /-- The call `http.NewRequest` fails. -/
  | badRequest (e : Err)
      (hreq : env.newRequestErr "POST" (s.baseURL ++ "login/token.php") = some e) :
      RenewRun env p s w (Outcome.fatal e)
        { files := w.files, remote := w.remote, trace := w.trace ++ [Event.readFile p] }
  /-- The call `client.Do` fails. -/
  | sendFailed (e : Err) (r : σ)
      (hreq : env.newRequestErr "POST" (s.baseURL ++ "login/token.php") = none)
      (hdo : env.clientDo w.remote 10 (tokenRequest env s) = (Sum.inr e, r)) :
      RenewRun env p s w (Outcome.fatal e)
        { files := w.files, remote := r,
          trace := w.trace ++ [Event.readFile p,
            Event.clientDo 10 (tokenRequest env s) (Sum.inr e)] }
  /-- Reading the body of the response fails. -/
  | bodyFailed (resp : Response) (e : Err) (r : σ)
      (hreq : env.newRequestErr "POST" (s.baseURL ++ "login/token.php") = none)
      (hdo : env.clientDo w.remote 10 (tokenRequest env s) = (Sum.inl resp, r))
      (hbody : resp.readAll.2 = some e) :
      RenewRun env p s w (Outcome.fatal e)
        { files := w.files, remote := r,
          trace := w.trace ++ [Event.readFile p,
            Event.clientDo 10 (tokenRequest env s) (Sum.inl resp)] }
  /-- Decoding the body as a `Token` fails. -/
  | decodeFailed (resp : Response) (e : Err) (r : σ)
      (hreq : env.newRequestErr "POST" (s.baseURL ++ "login/token.php") = none)
      (hdo : env.clientDo w.remote 10 (tokenRequest env s) = (Sum.inl resp, r))
      (hbody : resp.readAll.2 = none)
      (hdec : (env.jsonUnmarshalToken resp.readAll.1).2 = some e) :
      RenewRun env p s w (Outcome.fatal e)
        { files := w.files, remote := r,
          trace := w.trace ++ [Event.readFile p,
            Event.clientDo 10 (tokenRequest env s) (Sum.inl resp)] }
  /-- The issued token does not validate. -/
  | rejected (resp : Response) (tok : Token) (userID : Int) (e : Err) (r r2 : σ)
      (hreq : env.newRequestErr "POST" (s.baseURL ++ "login/token.php") = none)
      (hdo : env.clientDo w.remote 10 (tokenRequest env s) = (Sum.inl resp, r))
      (hbody : resp.readAll.2 = none)
      (hdec : env.jsonUnmarshalToken resp.readAll.1 = (tok, none))
      (hchk : env.getSiteInfo r (NewMoodleApi s.baseURL tok.token) = ((userID, some e), r2)) :
      RenewRun env p s w (Outcome.err e)
        { files := w.files, remote := r2,
          trace := w.trace ++ [Event.readFile p,
            Event.clientDo 10 (tokenRequest env s) (Sum.inl resp),
            Event.getSiteInfo (NewMoodleApi s.baseURL tok.token) userID (some e)] }
  /-- The issued token validates and `ioutil.WriteFile` fails. -/
  | writeFailed (resp : Response) (tok : Token) (userID : Int) (f : WriteFault) (r r2 r3 : σ)
      (hreq : env.newRequestErr "POST" (s.baseURL ++ "login/token.php") = none)
      (hdo : env.clientDo w.remote 10 (tokenRequest env s) = (Sum.inl resp, r))
      (hbody : resp.readAll.2 = none)
      (hdec : env.jsonUnmarshalToken resp.readAll.1 = (tok, none))
      (hchk : env.getSiteInfo r (NewMoodleApi s.baseURL tok.token) = ((userID, none), r2))
      (hwr : env.writeFault r2 p
        (env.jsonMarshalIndent { s with token := tok.token } "" " ") 0o600 = (some f, r3)) :
      RenewRun env p s w (Outcome.fatal f.err)
        { files := fun q => if q = p then f.left else w.files q, remote := r3,
          trace := w.trace ++ [Event.readFile p,
            Event.clientDo 10 (tokenRequest env s) (Sum.inl resp),
            Event.getSiteInfo (NewMoodleApi s.baseURL tok.token) userID none,
            Event.writeFile p (env.jsonMarshalIndent { s with token := tok.token } "" " ")
              0o600 (some f.err)] }
  /-- The issued token validates and is written to the file. -/
  | renewed (resp : Response) (tok : Token) (userID : Int) (r r2 r3 : σ)
      (hreq : env.newRequestErr "POST" (s.baseURL ++ "login/token.php") = none)
      (hdo : env.clientDo w.remote 10 (tokenRequest env s) = (Sum.inl resp, r))
      (hbody : resp.readAll.2 = none)
      (hdec : env.jsonUnmarshalToken resp.readAll.1 = (tok, none))
      (hchk : env.getSiteInfo r (NewMoodleApi s.baseURL tok.token) = ((userID, none), r2))
      (hwr : env.writeFault r2 p
        (env.jsonMarshalIndent { s with token := tok.token } "" " ") 0o600 = (none, r3)) :
      RenewRun env p s w (Outcome.ok tok.token)
        { files := fun q =>
            if q = p then Sum.inl (env.jsonMarshalIndent { s with token := tok.token } "" " ")
            else w.files q,
          remote := r3,
          trace := w.trace ++ [Event.readFile p,
            Event.clientDo 10 (tokenRequest env s) (Sum.inl resp),
            Event.getSiteInfo (NewMoodleApi s.baseURL tok.token) userID none,
            Event.writeFile p (env.jsonMarshalIndent { s with token := tok.token } "" " ")
              0o600 none] }

/-- The runs of `login`, path by path, with `s` the settings loaded from the
file. -/
inductive LoginRun (env : Env σ) (p : String) (s : Settings) (w : World σ) :
    Outcome MoodleApi → World σ → Prop
  /-- The cached token validates. -/
  | cached (userID : Int) (r : σ)
      (hne : s.token ≠ "")
      (hchk : env.getSiteInfo w.remote (NewMoodleApi s.baseURL s.token) = ((userID, none), r)) :
      LoginRun env p s w (Outcome.ok (NewMoodleApi s.baseURL s.token))
        { files := w.files, remote := r,
          trace := w.trace ++ [Event.readFile p,
            Event.getSiteInfo (NewMoodleApi s.baseURL s.token) userID none] }
  /-- The cached token does not validate: renewal. -/
  | stale (userID : Int) (e : Err) (r : σ) (o : Outcome String) (w2 : World σ)
      (hne : s.token ≠ "")
      (hchk : env.getSiteInfo w.remote (NewMoodleApi s.baseURL s.token) = ((userID, some e), r))
      (hrenew : RenewRun env p s
        { files := w.files, remote := r,
          trace := w.trace ++ [Event.readFile p,
            Event.getSiteInfo (NewMoodleApi s.baseURL s.token) userID (some e)] } o w2) :
      LoginRun env p s w (loginResult s o) w2
  /-- No cached token: renewal. -/
  | noToken (o : Outcome String) (w2 : World σ)
      (hempty : s.token = "")
      (hrenew : RenewRun env p s
        { files := w.files, remote := w.remote,
          trace := w.trace ++ [Event.readFile p] } o w2) :
      LoginRun env p s w (loginResult s o) w2

/-! ## Theorems -/

section primitives

variable (env : Env σ) (path data : String) (perm : Nat) (w : World σ)

@[simp] theorem ioutilReadFile_files : (ioutilReadFile path w).2.files = w.files := rfl

@[simp] theorem ioutilReadFile_remote : (ioutilReadFile path w).2.remote = w.remote := rfl

@[simp] theorem ioutilReadFile_trace :
    (ioutilReadFile path w).2.trace = w.trace ++ [Event.readFile path] := rfl

/-- The bytes a read returns depend on the files only. -/
theorem ioutilReadFile_data_congr (w1 w2 : World σ) (h : w1.files path = w2.files path) :
    (ioutilReadFile path w1).1 = (ioutilReadFile path w2).1 := by
  simp only [ioutilReadFile, h]

/-- The loaded settings depend on the content of the file only. -/
theorem loadSettings_congr (w1 w2 : World σ) (h : w1.files path = w2.files path) :
    loadSettings env path w1 = loadSettings env path w2 := by
  simp only [loadSettings, ioutilReadFile_data_congr path w1 w2 h]

@[simp] theorem loadSettings_readFile (p : String) :
    loadSettings env path (ioutilReadFile p w).2 = loadSettings env path w :=
  loadSettings_congr env path _ _ rfl

@[simp] theorem getUserID_files (api : MoodleApi) : (getUserID env api w).2.files = w.files := rfl

@[simp] theorem getUserID_remote (api : MoodleApi) :
    (getUserID env api w).2.remote = (env.getSiteInfo w.remote api).2 := rfl

@[simp] theorem getUserID_trace (api : MoodleApi) :
    (getUserID env api w).2.trace
      = w.trace ++ [Event.getSiteInfo api (env.getSiteInfo w.remote api).1.1
          (env.getSiteInfo w.remote api).1.2] := rfl

theorem getUserID_fst_ok (api : MoodleApi) (h : (env.getSiteInfo w.remote api).1.2 = none) :
    (getUserID env api w).1 = Outcome.ok (env.getSiteInfo w.remote api).1.1 := by
  unfold getUserID; simp only [h]

theorem getUserID_fst_err (api : MoodleApi) (e : Err)
    (h : (env.getSiteInfo w.remote api).1.2 = some e) :
    (getUserID env api w).1 = Outcome.err e := by
  unfold getUserID; simp only [h]

end primitives

/-- The form data `renewToken` sets (main.go 121-124). -/
theorem renewToken_values (u pw : String) :
    ((Values.set [] "username" u).set "password" pw).set "service" "moodle_mobile_app"
      = [("username", u), ("password", pw), ("service", "moodle_mobile_app")] := by
  simp [Values.set]

/-- The request `renewToken` builds (main.go 119-133). -/
theorem renewToken_request (env : Env σ) (s : Settings) :
    Request.headerAdd
      (Request.headerAdd
        { method := "POST"
          url := s.baseURL ++ "login/token.php"
          body := env.valuesEncode
            [("username", s.username), ("password", s.password),
             ("service", "moodle_mobile_app")]
          header := [] }
        "User-Agent" "Moodle Downloader/0.0.1")
      "Content-Type" "application/x-www-form-urlencoded" = tokenRequest env s := rfl

/-- Every call of `renewToken` is one of the runs of `RenewRun`. -/
theorem renewToken_run (env : Env σ) (p : String) (w : World σ) :
    RenewRun env p (loadSettings env p w) w (renewToken env p w).1 (renewToken env p w).2 := by
  unfold renewToken loadSettings
  simp only [renewToken_values]
  generalize (env.jsonUnmarshalSettings (ioutilReadFile p w).1.1).1 = s
  simp only [renewToken_request]
  cases hreq : env.newRequestErr "POST" (s.baseURL ++ "login/token.php") with
  | some e => exact RenewRun.badRequest e hreq
  | none =>
    simp only [httpClientDo, ioutilReadFile_remote, ioutilReadFile_files, ioutilReadFile_trace]
    rcases hdo : env.clientDo w.remote 10 (tokenRequest env s) with ⟨resp | e, r⟩
    · simp only []
      rcases hbody : resp.readAll.2 with _ | e
      · simp only []
        rcases hdec : env.jsonUnmarshalToken resp.readAll.1 with ⟨tok, _ | e⟩
        · simp only [getUserID, ioutilWriteFile, logErr]
          rcases hchk : env.getSiteInfo r (NewMoodleApi s.baseURL tok.token) with ⟨⟨userID, _ | e⟩, r2⟩
          · simp only []
            rcases hwr : env.writeFault r2 p
              (env.jsonMarshalIndent { s with token := tok.token } "" " ") 0o600 with ⟨_ | f, r3⟩
            · simpa using RenewRun.renewed resp tok userID r r2 r3 hreq hdo hbody hdec hchk hwr
            · simpa using RenewRun.writeFailed resp tok userID f r r2 r3 hreq hdo hbody hdec hchk hwr
          · simpa using RenewRun.rejected resp tok userID e r r2 hreq hdo hbody hdec hchk
        · simpa using RenewRun.decodeFailed resp e r hreq hdo hbody (by rw [hdec])
      · simpa using RenewRun.bodyFailed resp e r hreq hdo hbody
    · simpa using RenewRun.sendFailed e r hreq hdo


/-- What `loginRenew` returns, by the outcome of `renewToken`. -/
theorem loginRenew_eq (env : Env σ) (p : String) (s : Settings) (w : World σ) :
    loginRenew env p s w = (loginResult s (renewToken env p w).1, (renewToken env p w).2) := by
  unfold loginRenew
  cases h : (renewToken env p w).1 <;> simp [h, loginResult, NewMoodleApi]

/-- Every call of `login` is one of the runs of `LoginRun`. -/
theorem login_run (env : Env σ) (p : String) (w : World σ) :
    LoginRun env p (loadSettings env p w) w (login env p w).1 (login env p w).2 := by
  unfold login
  simp only [loginRenew_eq]
  have hs : (env.jsonUnmarshalSettings (ioutilReadFile p w).1.1).1 = loadSettings env p w := rfl
  simp only [hs]
  generalize hsv : loadSettings env p w = s
  by_cases hne : s.token = ""
  · simp only [hne, ne_eq, not_true_eq_false, if_false]
    have hr := renewToken_run env p (ioutilReadFile p w).2
    rw [loadSettings_readFile, hsv] at hr
    exact LoginRun.noToken _ _ hne hr
  · simp only [hne, ne_eq, not_false_eq_true, if_true]
    rcases hchk : env.getSiteInfo w.remote (NewMoodleApi s.baseURL s.token)
      with ⟨⟨userID, _ | e⟩, r⟩
    · have hok := getUserID_fst_ok env (ioutilReadFile p w).2
        (NewMoodleApi s.baseURL s.token) (by simp [hchk])
      simp only [hok]
      have hw : (getUserID env (NewMoodleApi s.baseURL s.token) (ioutilReadFile p w).2).2
          = { files := w.files, remote := r,
              trace := w.trace ++ [Event.readFile p,
                Event.getSiteInfo (NewMoodleApi s.baseURL s.token) userID none] } := by
        simp [getUserID, hchk]
      rw [hw]
      exact LoginRun.cached userID r hne hchk
    · have herr := getUserID_fst_err env (ioutilReadFile p w).2
        (NewMoodleApi s.baseURL s.token) e (by simp [hchk])
      simp only [herr]
      have hw : (getUserID env (NewMoodleApi s.baseURL s.token) (ioutilReadFile p w).2).2
          = { files := w.files, remote := r,
              trace := w.trace ++ [Event.readFile p,
                Event.getSiteInfo (NewMoodleApi s.baseURL s.token) userID (some e)] } := by
        simp [getUserID, hchk]
      rw [hw]
      have hr := renewToken_run env p
        { files := w.files, remote := r,
          trace := w.trace ++ [Event.readFile p,
            Event.getSiteInfo (NewMoodleApi s.baseURL s.token) userID (some e)] }
      have hl : loadSettings env p
          { files := w.files, remote := r,
            trace := w.trace ++ [Event.readFile p,
              Event.getSiteInfo (NewMoodleApi s.baseURL s.token) userID (some e)] } = s := by
        rw [← hsv]
        exact loadSettings_congr env p _ _ rfl
      rw [hl] at hr
      exact LoginRun.stale userID e r _ _ hne hchk hr

/-- The run of a call of `login` whose result is known. -/
theorem login_run_of_eq (env : Env σ) (p : String) (w w2 : World σ) (s : Settings)
    (o : Outcome MoodleApi) (hs : loadSettings env p w = s) (h : login env p w = (o, w2)) :
    LoginRun env p s w o w2 := by
  have hr := login_run env p w
  rw [h, hs] at hr
  exact hr

/-- The run of a call of `renewToken` whose result is known. -/
theorem renewToken_run_of_eq (env : Env σ) (p : String) (w w2 : World σ) (s : Settings)
    (o : Outcome String) (hs : loadSettings env p w = s) (h : renewToken env p w = (o, w2)) :
    RenewRun env p s w o w2 := by
  have hr := renewToken_run env p w
  rw [h, hs] at hr
  exact hr

/-- C1. When the token loaded from the settings file is not empty and
`GetSiteInfo` accepts it, `login` returns the client bound to that cached
token.  The calls of the run are the file read and that one validation: no
token request is sent, `ioutil.WriteFile` is not called, and the files are
what they were. -/
theorem login_cached_token_accepted (env : Env σ) (settingsPath : String) (w : World σ)
    (s : Settings) (userID : Int) (r : σ)
    (hs : loadSettings env settingsPath w = s)
    (hne : s.token ≠ "")
    (hvalid : env.getSiteInfo w.remote (NewMoodleApi s.baseURL s.token) = ((userID, none), r)) :
    ∃ evs : List Event,
      login env settingsPath w
        = (Outcome.ok (NewMoodleApi s.baseURL s.token),
           { files := w.files, remote := r, trace := w.trace ++ evs })
      ∧ evs = [Event.readFile settingsPath,
          Event.getSiteInfo (NewMoodleApi s.baseURL s.token) userID none]
      ∧ ∀ ev ∈ evs, ev.isTokenRequest = false ∧ ev.isWrite = false := by
  refine ⟨_, ?_, rfl, by simp [Event.isTokenRequest, Event.isWrite]⟩
  rcases hl : login env settingsPath w with ⟨o, w2⟩
  have hr := login_run_of_eq env settingsPath w w2 s o hs hl
  cases hr with
  | cached u r1 _ hchk =>
    rw [hvalid] at hchk
    simp only [Prod.mk.injEq, and_true] at hchk
    obtain ⟨rfl, rfl⟩ := hchk
    rfl
  | stale u e r1 o1 _ _ hchk _ =>
    rw [hvalid] at hchk
    simp at hchk
  | noToken o1 _ hempty _ => exact absurd hempty hne

/-- A successful `renewToken` run is the run `RenewRun.renewed`: the facts it
carries. -/
theorem RenewRun.ok_inv {env : Env σ} {p : String} {s : Settings} {w w2 : World σ}
    {newToken : String} (h : RenewRun env p s w (Outcome.ok newToken) w2) :
    ∃ (resp : Response) (tok : Token) (userID : Int) (r r2 r3 : σ),
      newToken = tok.token
      ∧ env.clientDo w.remote 10 (tokenRequest env s) = (Sum.inl resp, r)
      ∧ resp.readAll.2 = none
      ∧ env.jsonUnmarshalToken resp.readAll.1 = (tok, none)
      ∧ env.getSiteInfo r (NewMoodleApi s.baseURL tok.token) = ((userID, none), r2)
      ∧ env.writeFault r2 p
          (env.jsonMarshalIndent { s with token := tok.token } "" " ") 0o600 = (none, r3)
      ∧ w2 = { files := fun q =>
                 if q = p then Sum.inl (env.jsonMarshalIndent { s with token := tok.token } "" " ")
                 else w.files q,
               remote := r3,
               trace := w.trace ++ [Event.readFile p,
                 Event.clientDo 10 (tokenRequest env s) (Sum.inl resp),
                 Event.getSiteInfo (NewMoodleApi s.baseURL tok.token) userID none,
                 Event.writeFile p (env.jsonMarshalIndent { s with token := tok.token } "" " ")
                   0o600 none] } := by
  cases h with
  | renewed resp tok userID r r2 r3 hreq hdo hbody hdec hchk hwr =>
    exact ⟨resp, tok, userID, r, r2, r3, rfl, hdo, hbody, hdec, hchk, hwr, rfl⟩

/-- The outcome of `login` is a client only when `renewToken` returned a token. -/
theorem loginResult_ok {s : Settings} {o : Outcome String} {api : MoodleApi}
    (h : loginResult s o = Outcome.ok api) :
    ∃ newToken, o = Outcome.ok newToken ∧ api = NewMoodleApi s.baseURL newToken := by
  cases o with
  | ok t => exact ⟨t, rfl, by simpa [loginResult] using h.symm⟩
  | err e => simp [loginResult] at h
  | fatal e => simp [loginResult] at h

/-- C2. Whenever `login` returns a client, `GetSiteInfo` accepted that very
client (its base URL, its token) in a validation call of this run.  Its base
URL is the one loaded from the settings file.  Its token is the cached token
when that token is not empty and validates; otherwise it is the token decoded
from the response to the token request of this run. -/
theorem login_ok_token_validated (env : Env σ) (settingsPath : String) (w w2 : World σ)
    (s : Settings) (api : MoodleApi)
    (hs : loadSettings env settingsPath w = s)
    (h : login env settingsPath w = (Outcome.ok api, w2)) :
    ∃ (evs : List Event) (userID : Int),
      w2.trace = w.trace ++ evs
      ∧ Event.getSiteInfo api userID none ∈ evs
      ∧ api.baseURL = s.baseURL
      ∧ ((s.token ≠ ""
            ∧ (env.getSiteInfo w.remote (NewMoodleApi s.baseURL s.token)).1.2 = none
            ∧ api.token = s.token)
          ∨ (¬ (s.token ≠ ""
                ∧ (env.getSiteInfo w.remote (NewMoodleApi s.baseURL s.token)).1.2 = none)
            ∧ ∃ (resp : Response) (tok : Token),
                Event.clientDo 10 (tokenRequest env s) (Sum.inl resp) ∈ evs
                ∧ resp.readAll.2 = none
                ∧ env.jsonUnmarshalToken resp.readAll.1 = (tok, none)
                ∧ api.token = tok.token)) := by
  have hr := login_run_of_eq env settingsPath w w2 s _ hs h
  generalize hoe : (Outcome.ok api : Outcome MoodleApi) = o at hr
  cases hr with
  | cached u r1 hne hchk =>
    cases hoe
    exact ⟨_, u, rfl, by simp, rfl, Or.inl ⟨hne, by simp [hchk], rfl⟩⟩
  | stale u e r1 o1 _ hne hchk hrenew =>
    obtain ⟨t, rfl, rfl⟩ := loginResult_ok hoe.symm
    obtain ⟨resp, tok, u2, r, r2, r3, rfl, hdo, hbody, hdec, hchk2, hwr, rfl⟩ := hrenew.ok_inv
    refine ⟨_, u2, by simp only [List.append_assoc]; rfl, by simp, rfl, Or.inr ⟨?_, ?_⟩⟩
    · simp [hchk]
    · exact ⟨resp, tok, by simp, hbody, hdec, rfl⟩
  | noToken o1 _ hempty hrenew =>
    obtain ⟨t, rfl, rfl⟩ := loginResult_ok hoe.symm
    obtain ⟨resp, tok, u2, r, r2, r3, rfl, hdo, hbody, hdec, hchk2, hwr, rfl⟩ := hrenew.ok_inv
    refine ⟨_, u2, by simp only [List.append_assoc]; rfl, by simp, rfl, Or.inr ⟨?_, ?_⟩⟩
    · simp [hempty]
    · exact ⟨resp, tok, by simp, hbody, hdec, rfl⟩

/-- The settings loaded from a readable file are the decoded content. -/
theorem loadSettings_of_content (env : Env σ) (p data : String) (w : World σ)
    (h : w.files p = Sum.inl data) :
    loadSettings env p w = (env.jsonUnmarshalSettings data).1 := by
  simp only [loadSettings, ioutilReadFile, h]

/-- C3. After `renewToken` has returned a token, that token is the one decoded
from the response to the token request and accepted by `GetSiteInfo`, and the
settings file holds, written with mode 0600, the text
`json.MarshalIndent(settings, "", " ")` of the settings loaded before the
call with the token replaced by the new one.  When `json.Unmarshal` reads
that text back as what was marshalled, loading the file again gives the new
token and the base URL, user name and password of before. -/
theorem renewToken_ok_persists (env : Env σ) (settingsPath : String) (w w2 : World σ)
    (s : Settings) (newToken : String)
    (hs : loadSettings env settingsPath w = s)
    (h : renewToken env settingsPath w = (Outcome.ok newToken, w2))
    (hcodec : (env.jsonUnmarshalSettings
        (env.jsonMarshalIndent { s with token := newToken } "" " ")).1
          = { s with token := newToken }) :
    (∃ (resp : Response) (tok : Token) (userID : Int),
        Event.clientDo 10 (tokenRequest env s) (Sum.inl resp) ∈ w2.trace
        ∧ env.jsonUnmarshalToken resp.readAll.1 = (tok, none)
        ∧ tok.token = newToken
        ∧ Event.getSiteInfo (NewMoodleApi s.baseURL newToken) userID none ∈ w2.trace)
      ∧ Event.writeFile settingsPath
          (env.jsonMarshalIndent { s with token := newToken } "" " ") 0o600 none ∈ w2.trace
      ∧ w2.files settingsPath
          = Sum.inl (env.jsonMarshalIndent { s with token := newToken } "" " ")
      ∧ (loadSettings env settingsPath w2).token = newToken
      ∧ (loadSettings env settingsPath w2).baseURL = s.baseURL
      ∧ (loadSettings env settingsPath w2).username = s.username
      ∧ (loadSettings env settingsPath w2).password = s.password := by
  have hr := renewToken_run_of_eq env settingsPath w w2 s _ hs h
  obtain ⟨resp, tok, u, r, r2, r3, rfl, hdo, hbody, hdec, hchk, hwr, rfl⟩ := hr.ok_inv
  have hload := loadSettings_of_content env settingsPath
    (env.jsonMarshalIndent { s with token := tok.token } "" " ")
    { files := fun q =>
        if q = settingsPath then
          Sum.inl (env.jsonMarshalIndent { s with token := tok.token } "" " ")
        else w.files q,
      remote := r3,
      trace := w.trace ++ [Event.readFile settingsPath,
        Event.clientDo 10 (tokenRequest env s) (Sum.inl resp),
        Event.getSiteInfo (NewMoodleApi s.baseURL tok.token) u none,
        Event.writeFile settingsPath
          (env.jsonMarshalIndent { s with token := tok.token } "" " ") 0o600 none] }
    (by simp)
  rw [hcodec] at hload
  refine ⟨⟨resp, tok, u, by simp, hdec, rfl, by simp⟩, by simp, by simp, ?_, ?_, ?_, ?_⟩ <;>
    rw [hload]

/-- The write calls of a run of `renewToken`: none, with the files untouched,
or one, last, right after the accepted validation of the issued token. -/
theorem RenewRun.write_shape {env : Env σ} {p : String} {s : Settings} {w w2 : World σ}
    {o : Outcome String} (h : RenewRun env p s w o w2) :
    ∃ evs : List Event,
      w2.trace = w.trace ++ evs
      ∧ (evs.filter Event.isWrite).length ≤ 1
      ∧ (((∀ ev ∈ evs, ev.isWrite = false) ∧ w2.files = w.files)
          ∨ ∃ (pre : List Event) (resp : Response) (tok : Token) (userID : Int)
              (err : Option Err),
              evs = pre ++
                [Event.clientDo 10 (tokenRequest env s) (Sum.inl resp),
                 Event.getSiteInfo (NewMoodleApi s.baseURL tok.token) userID none,
                 Event.writeFile p (env.jsonMarshalIndent { s with token := tok.token } "" " ")
                   0o600 err]
              ∧ (∀ ev ∈ pre, ev.isWrite = false)
              ∧ env.jsonUnmarshalToken resp.readAll.1 = (tok, none)
              ∧ (err = none → o = Outcome.ok tok.token))
      ∧ ((∀ t, o ≠ Outcome.ok t) →
          ∀ ev ∈ evs, ev.isWrite = true →
            ∃ (data : String) (e : Err),
              ev = Event.writeFile p data 0o600 (some e) ∧ o = Outcome.fatal e) := by
  cases h with
  | badRequest e hreq =>
    exact ⟨_, rfl, by simp [Event.isWrite], Or.inl ⟨by simp [Event.isWrite], rfl⟩,
      by simp [Event.isWrite]⟩
  | sendFailed e r hreq hdo =>
    exact ⟨_, rfl, by simp [Event.isWrite], Or.inl ⟨by simp [Event.isWrite], rfl⟩,
      by simp [Event.isWrite]⟩
  | bodyFailed resp e r hreq hdo hbody =>
    exact ⟨_, rfl, by simp [Event.isWrite], Or.inl ⟨by simp [Event.isWrite], rfl⟩,
      by simp [Event.isWrite]⟩
  | decodeFailed resp e r hreq hdo hbody hdec =>
    exact ⟨_, rfl, by simp [Event.isWrite], Or.inl ⟨by simp [Event.isWrite], rfl⟩,
      by simp [Event.isWrite]⟩
  | rejected resp tok u e r r2 hreq hdo hbody hdec hchk =>
    exact ⟨_, rfl, by simp [Event.isWrite], Or.inl ⟨by simp [Event.isWrite], rfl⟩,
      by simp [Event.isWrite]⟩
  | writeFailed resp tok u f r r2 r3 hreq hdo hbody hdec hchk hwr =>
    refine ⟨_, rfl, by simp [Event.isWrite],
      Or.inr ⟨[Event.readFile p], resp, tok, u, some f.err, rfl, by simp [Event.isWrite],
        hdec, by simp⟩, ?_⟩
    intro _ ev hmem hw
    simp only [List.mem_cons, List.mem_singleton, List.not_mem_nil, or_false] at hmem
    rcases hmem with rfl | rfl | rfl | rfl
    · simp [Event.isWrite] at hw
    · simp [Event.isWrite] at hw
    · simp [Event.isWrite] at hw
    · exact ⟨_, _, rfl, rfl⟩
  | renewed resp tok u r r2 r3 hreq hdo hbody hdec hchk hwr =>
    refine ⟨_, rfl, by simp [Event.isWrite],
      Or.inr ⟨[Event.readFile p], resp, tok, u, none, rfl, by simp [Event.isWrite],
        hdec, by simp⟩, ?_⟩
    intro hno
    exact absurd rfl (hno _)

/-- The outcome of `login` is no client only when `renewToken` returned no token. -/
theorem loginResult_not_ok {s : Settings} {o : Outcome String}
    (h : ∀ api, loginResult s o ≠ Outcome.ok api) : ∀ t, o ≠ Outcome.ok t := by
  intro t ht
  subst ht
  exact h _ rfl

/-- C5 (amended). On every run of `login`, whatever the file holds and
whatever the environment answers, `ioutil.WriteFile` is called at most once.
Either it is not called and every file is what it was; or the call is the
last event of the run and comes right after the response to the token request
of this run and the validation call that accepted the token decoded from that
response.  The run that accepts the cached token has no write call.  A run
that does not return a client has no write call except one that itself
failed, whose error is then the fatal error of the run. -/
theorem login_writes_once_after_validation (env : Env σ) (settingsPath : String)
    (w : World σ) :
    ∃ evs : List Event,
      (login env settingsPath w).2.trace = w.trace ++ evs
      ∧ (evs.filter Event.isWrite).length ≤ 1
      ∧ (((∀ ev ∈ evs, ev.isWrite = false) ∧ (login env settingsPath w).2.files = w.files)
          ∨ ∃ (pre : List Event) (resp : Response) (tok : Token) (userID : Int)
              (err : Option Err),
              evs = pre ++
                [Event.clientDo 10 (tokenRequest env (loadSettings env settingsPath w))
                   (Sum.inl resp),
                 Event.getSiteInfo
                   (NewMoodleApi (loadSettings env settingsPath w).baseURL tok.token)
                   userID none,
                 Event.writeFile settingsPath
                   (env.jsonMarshalIndent
                     { loadSettings env settingsPath w with token := tok.token } "" " ")
                   0o600 err]
              ∧ (∀ ev ∈ pre, ev.isWrite = false)
              ∧ env.jsonUnmarshalToken resp.readAll.1 = (tok, none)
              ∧ (err = none → (login env settingsPath w).1
                  = Outcome.ok (NewMoodleApi (loadSettings env settingsPath w).baseURL
                      tok.token)))
      ∧ ((loadSettings env settingsPath w).token ≠ "" →
          (env.getSiteInfo w.remote
            (NewMoodleApi (loadSettings env settingsPath w).baseURL
              (loadSettings env settingsPath w).token)).1.2 = none →
          ∀ ev ∈ evs, ev.isWrite = false)
      ∧ ((∀ api, (login env settingsPath w).1 ≠ Outcome.ok api) →
          ∀ ev ∈ evs, ev.isWrite = true →
            ∃ (data : String) (e : Err),
              ev = Event.writeFile settingsPath data 0o600 (some e)
              ∧ (login env settingsPath w).1 = Outcome.fatal e) := by
  rcases hl : login env settingsPath w with ⟨o, w2⟩
  have hr := login_run_of_eq env settingsPath w w2 _ o rfl hl
  generalize loadSettings env settingsPath w = s at hr ⊢
  cases hr with
  | cached u r1 hne hchk =>
    refine ⟨_, rfl, by simp [Event.isWrite], Or.inl ⟨by simp [Event.isWrite], rfl⟩,
      by simp [Event.isWrite], by simp [Event.isWrite]⟩
  | stale u e1 r1 o1 _ hne hchk hrenew =>
    obtain ⟨evs, htr, hcount, hshape, hfail⟩ := hrenew.write_shape
    refine ⟨[Event.readFile settingsPath,
        Event.getSiteInfo (NewMoodleApi s.baseURL s.token) u (some e1)] ++ evs,
      by simp [htr], by simpa [Event.isWrite] using hcount, ?_, by simp [hchk], ?_⟩
    · rcases hshape with ⟨hnone, hfiles⟩ | ⟨pre, resp, tok, u2, err, rfl, hpre, hdec, hok⟩
      · refine Or.inl ⟨?_, hfiles⟩
        intro ev hmem
        simp only [List.mem_append, List.mem_cons, List.mem_singleton, List.not_mem_nil,
          or_false] at hmem
        rcases hmem with (rfl | rfl) | hmem
        · rfl
        · rfl
        · exact hnone ev hmem
      · refine Or.inr ⟨[Event.readFile settingsPath,
            Event.getSiteInfo (NewMoodleApi s.baseURL s.token) u (some e1)] ++ pre,
          resp, tok, u2, err, by simp, ?_, hdec, ?_⟩
        · intro ev hmem
          simp only [List.mem_append, List.mem_cons, List.mem_singleton, List.not_mem_nil,
            or_false] at hmem
          rcases hmem with (rfl | rfl) | hmem
          · rfl
          · rfl
          · exact hpre ev hmem
        · intro herr
          rw [hok herr]
          rfl
    · intro hno ev hmem hw
      simp only [List.mem_append, List.mem_cons, List.mem_singleton, List.not_mem_nil,
        or_false] at hmem
      rcases hmem with (rfl | rfl) | hmem
      · simp [Event.isWrite] at hw
      · simp [Event.isWrite] at hw
      · obtain ⟨data, e, hev, ho⟩ := hfail (loginResult_not_ok hno) ev hmem hw
        exact ⟨data, e, hev, by rw [ho]; rfl⟩
  | noToken o1 _ hempty hrenew =>
    obtain ⟨evs, htr, hcount, hshape, hfail⟩ := hrenew.write_shape
    refine ⟨[Event.readFile settingsPath] ++ evs,
      by simp [htr], by simpa [Event.isWrite] using hcount, ?_, by simp [hempty], ?_⟩
    · rcases hshape with ⟨hnone, hfiles⟩ | ⟨pre, resp, tok, u2, err, rfl, hpre, hdec, hok⟩
      · refine Or.inl ⟨?_, hfiles⟩
        intro ev hmem
        simp only [List.mem_append, List.mem_cons, List.mem_singleton, List.not_mem_nil,
          or_false] at hmem
        rcases hmem with rfl | hmem
        · rfl
        · exact hnone ev hmem
      · refine Or.inr ⟨[Event.readFile settingsPath] ++ pre,
          resp, tok, u2, err, by simp, ?_, hdec, ?_⟩
        · intro ev hmem
          simp only [List.mem_append, List.mem_cons, List.mem_singleton, List.not_mem_nil,
            or_false] at hmem
          rcases hmem with rfl | hmem
          · rfl
          · exact hpre ev hmem
        · intro herr
          rw [hok herr]
          rfl
    · intro hno ev hmem hw
      simp only [List.mem_append, List.mem_cons, List.mem_singleton, List.not_mem_nil,
        or_false] at hmem
      rcases hmem with rfl | hmem
      · simp [Event.isWrite] at hw
      · obtain ⟨data, e, hev, ho⟩ := hfail (loginResult_not_ok hno) ev hmem hw
        exact ⟨data, e, hev, by rw [ho]; rfl⟩

/-- The relation `RenewRun` has one run from each world. -/
theorem RenewRun.renew_det {env : Env σ} {p : String} {s : Settings} {w w1 w2 : World σ}
    {o1 o2 : Outcome String} (h1 : RenewRun env p s w o1 w1) (h2 : RenewRun env p s w o2 w2) :
    o1 = o2 ∧ w1 = w2 := by
  cases h1 <;> cases h2 <;> simp_all

/-- A run of `RenewRun` from the settings loaded from the file is the call of
`renewToken`. -/
theorem RenewRun.renew_sound {env : Env σ} {p : String} {w w2 : World σ} {o : Outcome String}
    (h : RenewRun env p (loadSettings env p w) w o w2) : renewToken env p w = (o, w2) := by
  obtain ⟨ho, hw⟩ := RenewRun.renew_det (renewToken_run env p w) h
  exact Prod.ext ho hw

/-- The relation `LoginRun` has one run from each world. -/
theorem LoginRun.login_det {env : Env σ} {p : String} {s : Settings} {w w1 w2 : World σ}
    {o1 o2 : Outcome MoodleApi} (h1 : LoginRun env p s w o1 w1) (h2 : LoginRun env p s w o2 w2) :
    o1 = o2 ∧ w1 = w2 := by
  cases h1 with
  | cached u r hne hchk =>
    cases h2 with
    | cached u2 r2 hne2 hchk2 => simp_all
    | stale u2 e2 r2 o w3 hne2 hchk2 hrenew2 => simp_all
    | noToken o w3 hempty2 hrenew2 => exact absurd hempty2 hne
  | stale u e r o w3 hne hchk hrenew =>
    cases h2 with
    | cached u2 r2 hne2 hchk2 => simp_all
    | stale u2 e2 r2 o' w3' hne2 hchk2 hrenew2 =>
      rw [hchk] at hchk2
      simp only [Prod.mk.injEq, Option.some.injEq] at hchk2
      obtain ⟨⟨rfl, rfl⟩, rfl⟩ := hchk2
      obtain ⟨rfl, rfl⟩ := RenewRun.renew_det hrenew hrenew2
      exact ⟨rfl, rfl⟩
    | noToken o' w3' hempty2 hrenew2 => exact absurd hempty2 hne
  | noToken o w3 hempty hrenew =>
    cases h2 with
    | cached u2 r2 hne2 hchk2 => exact absurd hempty hne2
    | stale u2 e2 r2 o' w3' hne2 hchk2 hrenew2 => exact absurd hempty hne2
    | noToken o' w3' hempty2 hrenew2 =>
      obtain ⟨rfl, rfl⟩ := RenewRun.renew_det hrenew hrenew2
      exact ⟨rfl, rfl⟩

/-- A run of `LoginRun` from the settings loaded from the file is the call of
`login`. -/
theorem LoginRun.login_sound {env : Env σ} {p : String} {w w2 : World σ} {o : Outcome MoodleApi}
    (h : LoginRun env p (loadSettings env p w) w o w2) : login env p w = (o, w2) := by
  obtain ⟨ho, hw⟩ := LoginRun.login_det (login_run env p w) h
  exact Prod.ext ho hw

/-- C6. When the token loaded from the settings file is empty, `login` makes
no validation call before the token request.  Its run starts with the two
file reads (its own and that of `renewToken`).  When `http.NewRequest`
rejects the URL the run ends there, in that fatal error, with no call to the
remote side at all; otherwise the next event is the token request: a POST to
the loaded base URL followed by `login/token.php`, whose body encodes the
loaded user name and password and the service `moodle_mobile_app`. -/
theorem login_empty_token_requests_first (env : Env σ) (settingsPath : String)
    (w : World σ) (s : Settings)
    (hs : loadSettings env settingsPath w = s)
    (hempty : s.token = "") :
    (∀ e, env.newRequestErr "POST" (s.baseURL ++ "login/token.php") = some e →
        login env settingsPath w
          = (Outcome.fatal e,
             { files := w.files, remote := w.remote,
               trace := w.trace ++ [Event.readFile settingsPath, Event.readFile settingsPath] }))
      ∧ (env.newRequestErr "POST" (s.baseURL ++ "login/token.php") = none →
          ∃ rest : List Event,
            (login env settingsPath w).2.trace
              = w.trace ++ [Event.readFile settingsPath, Event.readFile settingsPath,
                  Event.clientDo 10 (tokenRequest env s)
                    (env.clientDo w.remote 10 (tokenRequest env s)).1] ++ rest)
      ∧ (tokenRequest env s).method = "POST"
      ∧ (tokenRequest env s).url = s.baseURL ++ "login/token.php"
      ∧ (tokenRequest env s).body
          = env.valuesEncode [("username", s.username), ("password", s.password),
              ("service", "moodle_mobile_app")] := by
  refine ⟨?_, ?_, rfl, rfl, rfl⟩
  · intro e hreq
    subst hs
    have hrun := LoginRun.noToken (w := w) (p := settingsPath) _ _ hempty
      (RenewRun.badRequest e hreq)
    rw [hrun.login_sound]
    simp [loginResult]
  · intro hreq
    rcases hl : login env settingsPath w with ⟨o, w2⟩
    have hr := login_run_of_eq env settingsPath w w2 s o hs hl
    cases hr with
    | cached u r1 hne hchk => exact absurd hempty hne
    | stale u e1 r1 o1 _ hne hchk hrenew => exact absurd hempty hne
    | noToken o1 _ _ hrenew =>
      cases hrenew with
      | badRequest e hreq2 => rw [hreq] at hreq2; simp at hreq2
      | sendFailed e r _ hdo => exact ⟨[], by simp [hdo]⟩
      | bodyFailed resp e r _ hdo hbody => exact ⟨[], by simp [hdo]⟩
      | decodeFailed resp e r _ hdo hbody hdec => exact ⟨[], by simp [hdo]⟩
      | rejected resp tok u e r r2 _ hdo hbody hdec hchk =>
        exact ⟨[Event.getSiteInfo (NewMoodleApi s.baseURL tok.token) u (some e)],
          by simp [hdo]⟩
      | writeFailed resp tok u f r r2 r3 _ hdo hbody hdec hchk hwr =>
        exact ⟨[Event.getSiteInfo (NewMoodleApi s.baseURL tok.token) u none,
          Event.writeFile settingsPath
            (env.jsonMarshalIndent { s with token := tok.token } "" " ") 0o600 (some f.err)],
          by simp [hdo]⟩
      | renewed resp tok u r r2 r3 _ hdo hbody hdec hchk hwr =>
        exact ⟨[Event.getSiteInfo (NewMoodleApi s.baseURL tok.token) u none,
          Event.writeFile settingsPath
            (env.jsonMarshalIndent { s with token := tok.token } "" " ") 0o600 none],
          by simp [hdo]⟩

/-- A run of `renewToken` depends on the world through the remote state and
on the settings through base URL, user name and password: from another world
with the same remote state, and settings that agree on these three fields,
the outcome, the events and the final remote state are the same.  Either
there is no write call and both worlds keep their files, or there is one and
the file ends with the same content in both. -/
theorem RenewRun.renew_transfer {env : Env σ} {p : String} {s : Settings} {w w2 : World σ}
    {o : Outcome String} (h : RenewRun env p s w o w2) (s1 : Settings) (w1 : World σ)
    (hb : s1.baseURL = s.baseURL) (hu : s1.username = s.username)
    (hpw : s1.password = s.password) (hr : w1.remote = w.remote) :
    ∃ (w3 : World σ) (evs : List Event),
      RenewRun env p s1 w1 o w3
      ∧ w2.trace = w.trace ++ evs
      ∧ w3.trace = w1.trace ++ evs
      ∧ w3.remote = w2.remote
      ∧ (((∀ ev ∈ evs, ev.isWrite = false) ∧ w2.files = w.files ∧ w3.files = w1.files)
          ∨ ((∃ ev ∈ evs, ev.isWrite = true) ∧ w2.files p = w3.files p)) := by
  obtain ⟨b, u, pw, t⟩ := s
  obtain ⟨b1, u1, pw1, t1⟩ := s1
  simp only at hb hu hpw
  subst hb hu hpw
  obtain ⟨f1, rem1, tr1⟩ := w1
  simp only at hr
  subst hr
  cases h with
  | badRequest e hreq =>
    exact ⟨_, _, RenewRun.badRequest e hreq, rfl, rfl, rfl,
      Or.inl ⟨by simp [Event.isWrite], rfl, rfl⟩⟩
  | sendFailed e r hreq hdo =>
    exact ⟨_, _, RenewRun.sendFailed e r hreq hdo, rfl, rfl, rfl,
      Or.inl ⟨by simp [Event.isWrite], rfl, rfl⟩⟩
  | bodyFailed resp e r hreq hdo hbody =>
    exact ⟨_, _, RenewRun.bodyFailed resp e r hreq hdo hbody, rfl, rfl, rfl,
      Or.inl ⟨by simp [Event.isWrite], rfl, rfl⟩⟩
  | decodeFailed resp e r hreq hdo hbody hdec =>
    exact ⟨_, _, RenewRun.decodeFailed resp e r hreq hdo hbody hdec, rfl, rfl, rfl,
      Or.inl ⟨by simp [Event.isWrite], rfl, rfl⟩⟩
  | rejected resp tok u2 e r r2 hreq hdo hbody hdec hchk =>
    exact ⟨_, _, RenewRun.rejected resp tok u2 e r r2 hreq hdo hbody hdec hchk, rfl, rfl, rfl,
      Or.inl ⟨by simp [Event.isWrite], rfl, rfl⟩⟩
  | writeFailed resp tok u2 f r r2 r3 hreq hdo hbody hdec hchk hwr =>
    exact ⟨_, _, RenewRun.writeFailed resp tok u2 f r r2 r3 hreq hdo hbody hdec hchk hwr,
      rfl, rfl, rfl, Or.inr ⟨by simp [Event.isWrite], by simp⟩⟩
  | renewed resp tok u2 r r2 r3 hreq hdo hbody hdec hchk hwr =>
    exact ⟨_, _, RenewRun.renewed resp tok u2 r r2 r3 hreq hdo hbody hdec hchk hwr,
      rfl, rfl, rfl, Or.inr ⟨by simp [Event.isWrite], by simp⟩⟩

/-- With an empty loaded token, `login` is `renewToken` after the file read. -/
theorem login_of_noToken (env : Env σ) (p : String) (w : World σ) (s : Settings)
    (hs : loadSettings env p w = s) (hempty : s.token = "") :
    login env p w
      = (loginResult s
          (renewToken env p
            { files := w.files, remote := w.remote,
              trace := w.trace ++ [Event.readFile p] }).1,
         (renewToken env p
            { files := w.files, remote := w.remote,
              trace := w.trace ++ [Event.readFile p] }).2) := by
  subst hs
  have hrun := renewToken_run env p
    { files := w.files, remote := w.remote, trace := w.trace ++ [Event.readFile p] }
  rw [loadSettings_congr env p
    { files := w.files, remote := w.remote, trace := w.trace ++ [Event.readFile p] } w rfl]
    at hrun
  exact (LoginRun.noToken _ _ hempty hrun).login_sound

/-- With a loaded token that does not validate, `login` is `renewToken` after
the file read and the failed validation call. -/
theorem login_of_stale (env : Env σ) (p : String) (w : World σ) (s : Settings)
    (userID : Int) (e : Err) (r : σ)
    (hs : loadSettings env p w = s) (hne : s.token ≠ "")
    (hchk : env.getSiteInfo w.remote (NewMoodleApi s.baseURL s.token) = ((userID, some e), r)) :
    login env p w
      = (loginResult s
          (renewToken env p
            { files := w.files, remote := r,
              trace := w.trace ++ [Event.readFile p,
                Event.getSiteInfo (NewMoodleApi s.baseURL s.token) userID (some e)] }).1,
         (renewToken env p
            { files := w.files, remote := r,
              trace := w.trace ++ [Event.readFile p,
                Event.getSiteInfo (NewMoodleApi s.baseURL s.token) userID (some e)] }).2) := by
  subst hs
  have hrun := renewToken_run env p
    { files := w.files, remote := r,
      trace := w.trace ++ [Event.readFile p,
        Event.getSiteInfo (NewMoodleApi (loadSettings env p w).baseURL
          (loadSettings env p w).token) userID (some e)] }
  rw [loadSettings_congr env p
    { files := w.files, remote := r,
      trace := w.trace ++ [Event.readFile p,
        Event.getSiteInfo (NewMoodleApi (loadSettings env p w).baseURL
          (loadSettings env p w).token) userID (some e)] } w rfl] at hrun
  exact (LoginRun.stale userID e r _ _ hne hchk hrun).login_sound

/-- C7 (amended). When the loaded token is not empty and its validation
returns an error, whichever error, `login` does not stop: it goes on to
`renewToken`.  Compared with a run on a settings file that differs only in
an empty token field, started in the remote state the failed validation left,
the outcome is the same, the events after the cached-token check are the same
and the final remote state is the same.  When a write call is made the
settings file ends with the same content in both runs (in particular whenever
a client is returned); when none is made each run leaves its own files as
they were. -/
theorem login_stale_token_like_empty (env : Env σ) (settingsPath : String)
    (wA wB : World σ) (sA : Settings) (userID : Int) (e : Err) (r : σ)
    (hA : loadSettings env settingsPath wA = sA)
    (hne : sA.token ≠ "")
    (hfail : env.getSiteInfo wA.remote (NewMoodleApi sA.baseURL sA.token)
      = ((userID, some e), r))
    (hB : loadSettings env settingsPath wB = { sA with token := "" })
    (hremote : wB.remote = r) :
    login env settingsPath wA
        = (loginResult sA
            (renewToken env settingsPath
              { files := wA.files, remote := r,
                trace := wA.trace ++ [Event.readFile settingsPath,
                  Event.getSiteInfo (NewMoodleApi sA.baseURL sA.token) userID (some e)] }).1,
           (renewToken env settingsPath
              { files := wA.files, remote := r,
                trace := wA.trace ++ [Event.readFile settingsPath,
                  Event.getSiteInfo (NewMoodleApi sA.baseURL sA.token) userID (some e)] }).2)
      ∧ (login env settingsPath wA).1 = (login env settingsPath wB).1
      ∧ (login env settingsPath wA).2.remote = (login env settingsPath wB).2.remote
      ∧ ∃ evs : List Event,
          (login env settingsPath wA).2.trace
            = wA.trace ++ [Event.readFile settingsPath,
                Event.getSiteInfo (NewMoodleApi sA.baseURL sA.token) userID (some e)] ++ evs
          ∧ (login env settingsPath wB).2.trace
              = wB.trace ++ [Event.readFile settingsPath] ++ evs
          ∧ (((∀ ev ∈ evs, ev.isWrite = false)
                ∧ (login env settingsPath wA).2.files = wA.files
                ∧ (login env settingsPath wB).2.files = wB.files)
              ∨ ((∃ ev ∈ evs, ev.isWrite = true)
                ∧ (login env settingsPath wA).2.files settingsPath
                    = (login env settingsPath wB).2.files settingsPath))
          ∧ (∀ api, (login env settingsPath wA).1 = Outcome.ok api →
              (login env settingsPath wA).2.files settingsPath
                = (login env settingsPath wB).2.files settingsPath) := by
  have hlA := login_of_stale env settingsPath wA sA userID e r hA hne hfail
  have hlB := login_of_noToken env settingsPath wB _ hB rfl
  refine ⟨hlA, ?_⟩
  have hrunA := renewToken_run env settingsPath
    { files := wA.files, remote := r,
      trace := wA.trace ++ [Event.readFile settingsPath,
        Event.getSiteInfo (NewMoodleApi sA.baseURL sA.token) userID (some e)] }
  rw [loadSettings_congr env settingsPath
    { files := wA.files, remote := r,
      trace := wA.trace ++ [Event.readFile settingsPath,
        Event.getSiteInfo (NewMoodleApi sA.baseURL sA.token) userID (some e)] } wA rfl, hA]
    at hrunA
  obtain ⟨w3, evs, hrunB, htrA, htrB, hrem, hfiles⟩ :=
    hrunA.renew_transfer { sA with token := "" }
      { files := wB.files, remote := wB.remote,
        trace := wB.trace ++ [Event.readFile settingsPath] }
      rfl rfl rfl hremote
  rw [← hB, ← loadSettings_congr env settingsPath
    { files := wB.files, remote := wB.remote,
      trace := wB.trace ++ [Event.readFile settingsPath] } wB rfl] at hrunB
  have hsB := hrunB.renew_sound
  rw [hlA, hlB, hsB]
  refine ⟨?_, hrem.symm, evs, htrA, htrB, ?_, ?_⟩
  · cases (renewToken env settingsPath
      { files := wA.files, remote := r,
        trace := wA.trace ++ [Event.readFile settingsPath,
          Event.getSiteInfo (NewMoodleApi sA.baseURL sA.token) userID (some e)] }).1 <;> rfl
  · rcases hfiles with ⟨hno, hfA, hfB⟩ | ⟨hw, hf⟩
    · exact Or.inl ⟨hno, hfA, hfB⟩
    · exact Or.inr ⟨hw, hf⟩
  · intro api hok
    rcases hfiles with ⟨hno, hfA, hfB⟩ | ⟨hw, hf⟩
    · exfalso
      obtain ⟨t, ht, -⟩ := loginResult_ok hok
      rw [ht] at hrunA
      obtain ⟨resp, tok, u2, r1, r2, r3, -, -, -, -, -, -, hw2⟩ := hrunA.ok_inv
      rw [hw2] at htrA
      have hev := List.append_cancel_left htrA
      have := hno (Event.writeFile settingsPath
        (env.jsonMarshalIndent { sA with token := tok.token } "" " ") 0o600 none)
        (by rw [← hev]; simp)
      simp [Event.isWrite] at this
    · exact hf

/-- A run of `login` depends on the world through the remote state and the
loaded settings: from another world with the same remote state and the same
loaded settings the outcome, the events and the final remote state are the
same; either no write call is made and both worlds keep their files, or one
is made and the settings file ends with the same content in both. -/
theorem LoginRun.login_transfer {env : Env σ} {p : String} {s : Settings} {w w2 : World σ}
    {o : Outcome MoodleApi} (h : LoginRun env p s w o w2) (w1 : World σ)
    (hr : w1.remote = w.remote) :
    ∃ (w3 : World σ) (evs : List Event),
      LoginRun env p s w1 o w3
      ∧ w2.trace = w.trace ++ evs
      ∧ w3.trace = w1.trace ++ evs
      ∧ w3.remote = w2.remote
      ∧ (((∀ ev ∈ evs, ev.isWrite = false) ∧ w2.files = w.files ∧ w3.files = w1.files)
          ∨ ((∃ ev ∈ evs, ev.isWrite = true) ∧ w2.files p = w3.files p)) := by
  cases h with
  | cached u r hne hchk =>
    rw [← hr] at hchk
    exact ⟨_, _, LoginRun.cached u r hne hchk, rfl, rfl, rfl,
      Or.inl ⟨by simp [Event.isWrite], rfl, rfl⟩⟩
  | stale u e r o1 _ hne hchk hrenew =>
    obtain ⟨w3, evs, hrun, htr, htr3, hrem, hfiles⟩ :=
      hrenew.renew_transfer s
        { files := w1.files, remote := r,
          trace := w1.trace ++ [Event.readFile p,
            Event.getSiteInfo (NewMoodleApi s.baseURL s.token) u (some e)] }
        rfl rfl rfl rfl
    rw [← hr] at hchk
    refine ⟨w3, [Event.readFile p,
        Event.getSiteInfo (NewMoodleApi s.baseURL s.token) u (some e)] ++ evs,
      LoginRun.stale u e r _ _ hne hchk hrun, by simp [htr], by simp [htr3], hrem, ?_⟩
    rcases hfiles with ⟨hno, hf2, hf3⟩ | ⟨⟨ev, hmem, hw⟩, hf⟩
    · refine Or.inl ⟨?_, hf2, hf3⟩
      intro ev hmem
      simp only [List.mem_append, List.mem_cons, List.mem_singleton, List.not_mem_nil,
        or_false] at hmem
      rcases hmem with (rfl | rfl) | hmem
      · rfl
      · rfl
      · exact hno ev hmem
    · exact Or.inr ⟨⟨ev, by simp [hmem], hw⟩, hf⟩
  | noToken o1 _ hempty hrenew =>
    obtain ⟨w3, evs, hrun, htr, htr3, hrem, hfiles⟩ :=
      hrenew.renew_transfer s
        { files := w1.files, remote := w1.remote,
          trace := w1.trace ++ [Event.readFile p] }
        rfl rfl rfl hr
    refine ⟨w3, [Event.readFile p] ++ evs,
      LoginRun.noToken _ _ hempty hrun, by simp [htr], by simp [htr3], hrem, ?_⟩
    rcases hfiles with ⟨hno, hf2, hf3⟩ | ⟨⟨ev, hmem, hw⟩, hf⟩
    · refine Or.inl ⟨?_, hf2, hf3⟩
      intro ev hmem
      simp only [List.mem_append, List.mem_cons, List.mem_singleton, List.not_mem_nil,
        or_false] at hmem
      rcases hmem with rfl | hmem
      · rfl
      · exact hno ev hmem
    · exact Or.inr ⟨⟨ev, by simp [hmem], hw⟩, hf⟩

/-- C8 (amended). `login` does not fail when the settings file cannot be read
or does not decode: it drops the error of `ioutil.ReadFile` and the error of
`json.Unmarshal` and goes on with the `Settings` value the decoder left (for
a file that cannot be read, the value decoded from no bytes).  Its run is
that of any run, in the same remote state, on a file that loads to the same
value, with or without an error: same outcome, same events, same final
remote state, and the same content of the settings file after a write call
(without one, each run leaves its files as they were). -/
theorem login_ignores_load_errors (env : Env σ) (settingsPath : String) (wA wB : World σ)
    (hsame : loadSettings env settingsPath wB = loadSettings env settingsPath wA)
    (hremote : wB.remote = wA.remote) :
    (∀ e, wA.files settingsPath = Sum.inr e →
        loadSettings env settingsPath wA = (env.jsonUnmarshalSettings "").1)
      ∧ (login env settingsPath wA).1 = (login env settingsPath wB).1
      ∧ (login env settingsPath wA).2.remote = (login env settingsPath wB).2.remote
      ∧ ∃ evs : List Event,
          (login env settingsPath wA).2.trace = wA.trace ++ evs
          ∧ (login env settingsPath wB).2.trace = wB.trace ++ evs
          ∧ (((∀ ev ∈ evs, ev.isWrite = false)
                ∧ (login env settingsPath wA).2.files = wA.files
                ∧ (login env settingsPath wB).2.files = wB.files)
              ∨ ((∃ ev ∈ evs, ev.isWrite = true)
                ∧ (login env settingsPath wA).2.files settingsPath
                    = (login env settingsPath wB).2.files settingsPath)) := by
  refine ⟨?_, ?_⟩
  · intro e he
    simp only [loadSettings, ioutilReadFile, he]
  · obtain ⟨w3, evs, hrunB, htrA, htrB, hrem, hfiles⟩ :=
      (login_run env settingsPath wA).login_transfer wB hremote
    rw [← hsame] at hrunB
    have hB := hrunB.login_sound
    rw [hB]
    exact ⟨rfl, hrem.symm, evs, htrA, htrB, hfiles⟩

/-- A failed write call in a run of `renewToken` ends the run in the error of
the write; it was made for a token that the site issued and accepted. -/
theorem RenewRun.failed_write {env : Env σ} {p : String} {s : Settings} {w w2 : World σ}
    {o : Outcome String} (h : RenewRun env p s w o w2) (evs : List Event)
    (path data : String) (perm : Nat) (e : Err)
    (htr : w2.trace = w.trace ++ evs)
    (hmem : Event.writeFile path data perm (some e) ∈ evs) :
    o = Outcome.fatal e
      ∧ ∃ (resp : Response) (tok : Token) (userID : Int),
          Event.clientDo 10 (tokenRequest env s) (Sum.inl resp) ∈ evs
          ∧ env.jsonUnmarshalToken resp.readAll.1 = (tok, none)
          ∧ Event.getSiteInfo (NewMoodleApi s.baseURL tok.token) userID none ∈ evs := by
  cases h with
  | badRequest e1 hreq =>
    have hl := List.append_cancel_left htr
    subst hl
    simp at hmem
  | sendFailed e1 r hreq hdo =>
    have hl := List.append_cancel_left htr
    subst hl
    simp at hmem
  | bodyFailed resp e1 r hreq hdo hbody =>
    have hl := List.append_cancel_left htr
    subst hl
    simp at hmem
  | decodeFailed resp e1 r hreq hdo hbody hdec =>
    have hl := List.append_cancel_left htr
    subst hl
    simp at hmem
  | rejected resp tok u e1 r r2 hreq hdo hbody hdec hchk =>
    have hl := List.append_cancel_left htr
    subst hl
    simp at hmem
  | writeFailed resp tok u f r r2 r3 hreq hdo hbody hdec hchk hwr =>
    have hl := List.append_cancel_left htr
    subst hl
    simp at hmem
    obtain ⟨-, -, -, rfl⟩ := hmem
    exact ⟨rfl, resp, tok, u, by simp, hdec, by simp⟩
  | renewed resp tok u r r2 r3 hreq hdo hbody hdec hchk hwr =>
    have hl := List.append_cancel_left htr
    subst hl
    simp at hmem

/-- C9 (amended). When the freshly issued token has been accepted and
`ioutil.WriteFile` then fails, the failure does block the token: `logErr`
ends the process in the error of the write.  `renewToken` returns no token,
and `login` returns no client: the outcome of both is that fatal error. -/
theorem write_failure_is_fatal (env : Env σ) (settingsPath : String) (w : World σ) :
    (∀ (evs : List Event) (path data : String) (perm : Nat) (e : Err),
        (renewToken env settingsPath w).2.trace = w.trace ++ evs →
        Event.writeFile path data perm (some e) ∈ evs →
        (renewToken env settingsPath w).1 = Outcome.fatal e
          ∧ ∃ (resp : Response) (tok : Token) (userID : Int),
              Event.clientDo 10 (tokenRequest env (loadSettings env settingsPath w))
                (Sum.inl resp) ∈ evs
              ∧ env.jsonUnmarshalToken resp.readAll.1 = (tok, none)
              ∧ Event.getSiteInfo
                  (NewMoodleApi (loadSettings env settingsPath w).baseURL tok.token)
                  userID none ∈ evs)
      ∧ (∀ (evs : List Event) (path data : String) (perm : Nat) (e : Err),
          (login env settingsPath w).2.trace = w.trace ++ evs →
          Event.writeFile path data perm (some e) ∈ evs →
          (login env settingsPath w).1 = Outcome.fatal e) := by
  refine ⟨?_, ?_⟩
  · intro evs path data perm e htr hmem
    exact (renewToken_run env settingsPath w).failed_write evs path data perm e htr hmem
  · intro evs path data perm e htr hmem
    rcases hl : login env settingsPath w with ⟨o, w2⟩
    rw [hl] at htr
    have hr := login_run_of_eq env settingsPath w w2 _ o rfl hl
    cases hr with
    | cached u r1 hne hchk =>
      have hev := List.append_cancel_left htr
      subst hev
      simp at hmem
    | stale u e1 r1 o1 _ hne hchk hrenew =>
      obtain ⟨evs2, htr2, -⟩ := hrenew.write_shape
      rw [htr2, List.append_assoc] at htr
      have hev := List.append_cancel_left htr
      subst hev
      simp only [List.mem_append, List.mem_cons, List.mem_singleton, List.not_mem_nil,
        or_false] at hmem
      rcases hmem with (hmem | hmem) | hmem
      · cases hmem
      · cases hmem
      · obtain ⟨rfl, -⟩ := hrenew.failed_write evs2 path data perm e htr2 hmem
        rfl
    | noToken o1 _ hempty hrenew =>
      obtain ⟨evs2, htr2, -⟩ := hrenew.write_shape
      rw [htr2, List.append_assoc] at htr
      have hev := List.append_cancel_left htr
      subst hev
      simp only [List.mem_append, List.mem_cons, List.mem_singleton, List.not_mem_nil,
        or_false] at hmem
      rcases hmem with hmem | hmem
      · cases hmem
      · obtain ⟨rfl, -⟩ := hrenew.failed_write evs2 path data perm e htr2 hmem
        rfl

/-- C4 (amended). Let the cached token be empty or rejected, let the token
request be answered with a body that decodes to a token, and let
`GetSiteInfo` reject that token with the error `e`.  Then `login` does not
return: it ends the process with `log.Fatalln(e)` and yields no client.  Its
run is the cached-token check, the file read of `renewToken`, the token
request and the rejected validation, and nothing after it: there is no write
call and every file is what it was before the call. -/
theorem login_rejected_token_no_write (env : Env σ) (settingsPath : String)
    (w : World σ) (s : Settings) (r0 r1 r2 : σ) (pre : List Event)
    (resp : Response) (tok : Token) (userID : Int) (e : Err)
    (hs : loadSettings env settingsPath w = s)
    (hcached : (s.token = "" ∧ r0 = w.remote ∧ pre = [Event.readFile settingsPath])
      ∨ (s.token ≠ ""
          ∧ ∃ (u0 : Int) (e0 : Err),
              env.getSiteInfo w.remote (NewMoodleApi s.baseURL s.token) = ((u0, some e0), r0)
              ∧ pre = [Event.readFile settingsPath,
                  Event.getSiteInfo (NewMoodleApi s.baseURL s.token) u0 (some e0)]))
    (hreq : env.newRequestErr "POST" (s.baseURL ++ "login/token.php") = none)
    (hdo : env.clientDo r0 10 (tokenRequest env s) = (Sum.inl resp, r1))
    (hbody : resp.readAll.2 = none)
    (hdec : env.jsonUnmarshalToken resp.readAll.1 = (tok, none))
    (hchk : env.getSiteInfo r1 (NewMoodleApi s.baseURL tok.token) = ((userID, some e), r2)) :
    ∃ evs : List Event,
      login env settingsPath w
        = (Outcome.fatal e, { files := w.files, remote := r2, trace := w.trace ++ evs })
      ∧ evs = pre ++ [Event.readFile settingsPath,
          Event.clientDo 10 (tokenRequest env s) (Sum.inl resp),
          Event.getSiteInfo (NewMoodleApi s.baseURL tok.token) userID (some e)]
      ∧ (∀ ev ∈ evs, ev.isWrite = false)
      ∧ (∀ api, (login env settingsPath w).1 ≠ Outcome.ok api)
      ∧ (login env settingsPath w).2.files = w.files := by
  subst hs
  rcases hcached with ⟨hempty, rfl, rfl⟩ | ⟨hne, u0, e0, hchk0, rfl⟩
  · have hrun := LoginRun.noToken (w := w) (p := settingsPath) _ _ hempty
      (RenewRun.rejected resp tok userID e r1 r2 hreq hdo hbody hdec hchk)
    have hl := hrun.login_sound
    refine ⟨_, ?_, rfl, by simp [Event.isWrite], ?_, ?_⟩
    · rw [hl]
      simp [loginResult]
    · rw [hl]
      intro api h
      simp [loginResult] at h
    · rw [hl]
  · have hrun := LoginRun.stale (w := w) (p := settingsPath) u0 e0 r0 _ _ hne hchk0
      (RenewRun.rejected resp tok userID e r1 r2 hreq hdo hbody hdec hchk)
    have hl := hrun.login_sound
    refine ⟨_, ?_, rfl, by simp [Event.isWrite], ?_, ?_⟩
    · rw [hl]
      simp [loginResult]
    · rw [hl]
      intro api h
      simp [loginResult] at h
    · rw [hl]

/-- A run of `renewToken` in the environment with the status codes replaced:
same outcome, same files, same remote state, same events up to the status
codes. -/
theorem RenewRun.status_free {env : Env σ} {p : String} {s : Settings} {w w2 : World σ}
    {o : Outcome String} (h : RenewRun env p s w o w2) (f : Nat → Nat) :
    ∃ (evs : List Event) (w3 : World σ),
      w2.trace = w.trace ++ evs
      ∧ RenewRun (env.mapStatus f) p s w o w3
      ∧ w3.trace = w.trace ++ evs.map (Event.mapStatus f)
      ∧ w3.files = w2.files
      ∧ w3.remote = w2.remote := by
  have hd : ∀ (a : Response ⊕ Err) (r : σ),
      env.clientDo w.remote 10 (tokenRequest env s) = (a, r) →
      (env.mapStatus f).clientDo w.remote 10 (tokenRequest (env.mapStatus f) s)
        = (Sum.map (Response.mapStatus f) id a, r) := by
    intro a r hdo
    show (Sum.map (Response.mapStatus f) id (env.clientDo w.remote 10 (tokenRequest env s)).1,
      (env.clientDo w.remote 10 (tokenRequest env s)).2) = _
    rw [hdo]
  cases h with
  | badRequest e hreq =>
    exact ⟨_, _, rfl, RenewRun.badRequest e hreq, rfl, rfl, rfl⟩
  | sendFailed e r hreq hdo =>
    exact ⟨_, _, rfl, RenewRun.sendFailed e r hreq (hd _ _ hdo), rfl, rfl, rfl⟩
  | bodyFailed resp e r hreq hdo hbody =>
    exact ⟨_, _, rfl,
      RenewRun.bodyFailed (Response.mapStatus f resp) e r hreq (hd _ _ hdo) hbody,
      rfl, rfl, rfl⟩
  | decodeFailed resp e r hreq hdo hbody hdec =>
    exact ⟨_, _, rfl,
      RenewRun.decodeFailed (Response.mapStatus f resp) e r hreq (hd _ _ hdo) hbody hdec,
      rfl, rfl, rfl⟩
  | rejected resp tok u e r r2 hreq hdo hbody hdec hchk =>
    exact ⟨_, _, rfl,
      RenewRun.rejected (Response.mapStatus f resp) tok u e r r2 hreq (hd _ _ hdo) hbody hdec
        hchk,
      rfl, rfl, rfl⟩
  | writeFailed resp tok u flt r r2 r3 hreq hdo hbody hdec hchk hwr =>
    exact ⟨_, _, rfl,
      RenewRun.writeFailed (Response.mapStatus f resp) tok u flt r r2 r3 hreq (hd _ _ hdo)
        hbody hdec hchk hwr,
      rfl, rfl, rfl⟩
  | renewed resp tok u r r2 r3 hreq hdo hbody hdec hchk hwr =>
    exact ⟨_, _, rfl,
      RenewRun.renewed (Response.mapStatus f resp) tok u r r2 r3 hreq (hd _ _ hdo)
        hbody hdec hchk hwr,
      rfl, rfl, rfl⟩

/-- C10 (amended). When the token request is sent and `client.Do` fails, or
the body of the response cannot be read, or `json.Unmarshal` of the body
into a `Token` returns an error (as it does for every body that is not
well-formed JSON), `renewToken` ends in that fatal error: it returns no
token, its run is the file read and the request, with no validation call and
no write call, and the files are what they were.  The status code of the
response is not examined: when the site answers with any other status codes
instead, the outcome of `renewToken`, the files, the remote state and the
calls of the run, up to the status code recorded with the response, are the
same. -/
theorem renewToken_bad_response_fatal (env : Env σ) (settingsPath : String) (w : World σ) :
    (∀ (s : Settings) (e : Err),
        loadSettings env settingsPath w = s →
        env.newRequestErr "POST" (s.baseURL ++ "login/token.php") = none →
        ((env.clientDo w.remote 10 (tokenRequest env s)).1 = Sum.inr e
          ∨ ∃ resp : Response,
              (env.clientDo w.remote 10 (tokenRequest env s)).1 = Sum.inl resp
              ∧ (resp.readAll.2 = some e
                  ∨ (resp.readAll.2 = none
                      ∧ (env.jsonUnmarshalToken resp.readAll.1).2 = some e))) →
        ∃ evs : List Event,
          renewToken env settingsPath w
            = (Outcome.fatal e,
               { files := w.files,
                 remote := (env.clientDo w.remote 10 (tokenRequest env s)).2,
                 trace := w.trace ++ evs })
          ∧ evs = [Event.readFile settingsPath,
              Event.clientDo 10 (tokenRequest env s)
                (env.clientDo w.remote 10 (tokenRequest env s)).1]
          ∧ ∀ ev ∈ evs, ev.isValidation = false ∧ ev.isWrite = false)
      ∧ (∀ f : Nat → Nat,
          ∃ evs : List Event,
            (renewToken env settingsPath w).2.trace = w.trace ++ evs
            ∧ (renewToken (env.mapStatus f) settingsPath w).2.trace
                = w.trace ++ evs.map (Event.mapStatus f)
            ∧ (renewToken (env.mapStatus f) settingsPath w).1
                = (renewToken env settingsPath w).1
            ∧ (renewToken (env.mapStatus f) settingsPath w).2.files
                = (renewToken env settingsPath w).2.files
            ∧ (renewToken (env.mapStatus f) settingsPath w).2.remote
                = (renewToken env settingsPath w).2.remote) := by
  refine ⟨?_, ?_⟩
  · intro s e hs hreq hbad
    refine ⟨_, ?_, rfl, by simp [Event.isValidation, Event.isWrite]⟩
    subst hs
    rcases hbad with hsend | ⟨resp, hresp, hbody | ⟨hbody, hdec⟩⟩
    · have hdo : env.clientDo w.remote 10 (tokenRequest env (loadSettings env settingsPath w))
          = (Sum.inr e, (env.clientDo w.remote 10
              (tokenRequest env (loadSettings env settingsPath w))).2) :=
        Prod.ext hsend rfl
      rw [(RenewRun.sendFailed e _ hreq hdo).renew_sound, hsend]
    · have hdo : env.clientDo w.remote 10 (tokenRequest env (loadSettings env settingsPath w))
          = (Sum.inl resp, (env.clientDo w.remote 10
              (tokenRequest env (loadSettings env settingsPath w))).2) :=
        Prod.ext hresp rfl
      rw [(RenewRun.bodyFailed resp e _ hreq hdo hbody).renew_sound, hresp]
    · have hdo : env.clientDo w.remote 10 (tokenRequest env (loadSettings env settingsPath w))
          = (Sum.inl resp, (env.clientDo w.remote 10
              (tokenRequest env (loadSettings env settingsPath w))).2) :=
        Prod.ext hresp rfl
      rw [(RenewRun.decodeFailed resp e _ hreq hdo hbody hdec).renew_sound, hresp]
  · intro f
    obtain ⟨evs, w3, htr, hrun, htr3, hfiles, hrem⟩ :=
      (renewToken_run env settingsPath w).status_free f
    have hrun2 : RenewRun (env.mapStatus f) settingsPath
        (loadSettings (env.mapStatus f) settingsPath w) w
        (renewToken env settingsPath w).1 w3 := hrun
    have hl := hrun2.renew_sound
    rw [hl]
    exact ⟨evs, htr, htr3, rfl, hfiles, hrem⟩

/-! ## Concrete runs -/

/-- The run of C1 on the example: the cached token `abc123` is accepted. -/
theorem login_cached_token_accepted_witness :
    ∃ evs : List Event,
      login envOK "settings.json" (exWorld (Sum.inl (exStore "abc123")))
        = (Outcome.ok (NewMoodleApi "https://example.edu/" "abc123"),
           { files := (exWorld (Sum.inl (exStore "abc123"))).files, remote := (),
             trace := [] ++ evs })
      ∧ evs = [Event.readFile "settings.json",
          Event.getSiteInfo (NewMoodleApi "https://example.edu/" "abc123") 42 none]
      ∧ ∀ ev ∈ evs, ev.isTokenRequest = false ∧ ev.isWrite = false :=
  login_cached_token_accepted envOK "settings.json" (exWorld (Sum.inl (exStore "abc123")))
    (exSettings "abc123") 42 () (by decide) (by decide) (by decide)

/-- The example of C2: from the settings with an empty token, the site
issuing and accepting `abc123`, `login` returns the client of
`https://example.edu/` with the token `abc123`. -/
theorem login_ok_token_validated_witness :
    (login envOK "settings.json" (exWorld (Sum.inl (exStore "")))).1
        = Outcome.ok { baseURL := "https://example.edu/", token := "abc123" }
      ∧ ∃ (evs : List Event) (userID : Int),
          (login envOK "settings.json" (exWorld (Sum.inl (exStore "")))).2.trace = [] ++ evs
          ∧ Event.getSiteInfo { baseURL := "https://example.edu/", token := "abc123" }
              userID none ∈ evs
          ∧ "https://example.edu/" = (exSettings "").baseURL
          ∧ (((exSettings "").token ≠ ""
                ∧ (envOK.getSiteInfo ()
                    (NewMoodleApi (exSettings "").baseURL (exSettings "").token)).1.2 = none
                ∧ "abc123" = (exSettings "").token)
              ∨ (¬ ((exSettings "").token ≠ ""
                    ∧ (envOK.getSiteInfo ()
                        (NewMoodleApi (exSettings "").baseURL (exSettings "").token)).1.2
                      = none)
                ∧ ∃ (resp : Response) (tok : Token),
                    Event.clientDo 10 (tokenRequest envOK (exSettings "")) (Sum.inl resp) ∈ evs
                    ∧ resp.readAll.2 = none
                    ∧ envOK.jsonUnmarshalToken resp.readAll.1 = (tok, none)
                    ∧ "abc123" = tok.token)) :=
  ⟨by decide,
   login_ok_token_validated envOK "settings.json" (exWorld (Sum.inl (exStore "")))
     (login envOK "settings.json" (exWorld (Sum.inl (exStore "")))).2
     (exSettings "") { baseURL := "https://example.edu/", token := "abc123" }
     (by decide) (Prod.ext (by decide) rfl)⟩

/-- The example of C3: after the renewal the settings file holds the token
`abc123`, and loading it again gives `abc123` with the fields of before. -/
theorem renewToken_ok_persists_witness :
    (renewToken envOK "settings.json" (exWorld (Sum.inl (exStore "")))).1 = Outcome.ok "abc123"
      ∧ (renewToken envOK "settings.json" (exWorld (Sum.inl (exStore "")))).2.files
          "settings.json" = Sum.inl (exStore "abc123")
      ∧ (loadSettings envOK "settings.json"
          (renewToken envOK "settings.json" (exWorld (Sum.inl (exStore "")))).2).token = "abc123"
      ∧ (loadSettings envOK "settings.json"
          (renewToken envOK "settings.json" (exWorld (Sum.inl (exStore "")))).2).baseURL
          = "https://example.edu/" :=
  have h := renewToken_ok_persists envOK "settings.json" (exWorld (Sum.inl (exStore "")))
    (renewToken envOK "settings.json" (exWorld (Sum.inl (exStore "")))).2
    (exSettings "") "abc123" (by decide) (Prod.ext (by decide) rfl) (by decide)
  ⟨by decide, h.2.2.1, h.2.2.2.1, h.2.2.2.2.1⟩

/-- C4, as stated, fails: the settings hold an empty token, the site issues
`bad` and rejects it.  `login` does not return an error: it ends the process
with `log.Fatalln`, so its outcome is no returned error value. -/
theorem login_rejected_token_exits :
    (loadSettings envReject "settings.json" (exWorld (Sum.inl (exStore "")))).token = ""
      ∧ (login envReject "settings.json" (exWorld (Sum.inl (exStore "")))).2.trace
          = [Event.readFile "settings.json", Event.readFile "settings.json",
              Event.clientDo 10 exRequest
                (Sum.inl { statusCode := 200, readAll := (tokenBody "bad", none) }),
              Event.getSiteInfo { baseURL := "https://example.edu/", token := "bad" } 0
                (some "invalidtoken")]
      ∧ (login envReject "settings.json" (exWorld (Sum.inl (exStore "")))).1
          = Outcome.fatal "invalidtoken"
      ∧ ¬ ∃ e, (login envReject "settings.json" (exWorld (Sum.inl (exStore "")))).1
          = Outcome.err e :=
  have h : (login envReject "settings.json" (exWorld (Sum.inl (exStore "")))).1
      = Outcome.fatal "invalidtoken" := by decide
  ⟨by decide, by decide, h, fun ⟨_, he⟩ => by rw [h] at he; cases he⟩

/-- The run of C4 (amended) on the example: the cached token `old` is
rejected, the site issues `bad` and rejects it too. -/
theorem login_rejected_token_no_write_witness :
    ∃ evs : List Event,
      login envReject "settings.json" (exWorld (Sum.inl (exStore "old")))
        = (Outcome.fatal "invalidtoken",
           { files := (exWorld (Sum.inl (exStore "old"))).files, remote := (),
             trace := [] ++ evs })
      ∧ evs = [Event.readFile "settings.json",
            Event.getSiteInfo (NewMoodleApi "https://example.edu/" "old") 0
              (some "invalidtoken")]
          ++ [Event.readFile "settings.json",
            Event.clientDo 10 (tokenRequest envReject (exSettings "old"))
              (Sum.inl { statusCode := 200, readAll := (tokenBody "bad", none) }),
            Event.getSiteInfo (NewMoodleApi "https://example.edu/" "bad") 0
              (some "invalidtoken")]
      ∧ (∀ ev ∈ evs, ev.isWrite = false)
      ∧ (∀ api, (login envReject "settings.json" (exWorld (Sum.inl (exStore "old")))).1
          ≠ Outcome.ok api)
      ∧ (login envReject "settings.json" (exWorld (Sum.inl (exStore "old")))).2.files
          = (exWorld (Sum.inl (exStore "old"))).files :=
  login_rejected_token_no_write envReject "settings.json" (exWorld (Sum.inl (exStore "old")))
    (exSettings "old") () () ()
    [Event.readFile "settings.json",
      Event.getSiteInfo (NewMoodleApi "https://example.edu/" "old") 0 (some "invalidtoken")]
    { statusCode := 200, readAll := (tokenBody "bad", none) }
    { token := "bad", privateToken := "" } 0 "invalidtoken"
    (by decide)
    (Or.inr ⟨by decide, 0, "invalidtoken", by decide, rfl⟩)
    (by decide) (by decide) rfl (by decide) (by decide)

/-- C5, as stated, fails: with a full disk the run of `login` ends in a fatal
error, and it has made a write call, which left the settings file empty. -/
theorem login_failure_path_with_write :
    (login envDiskFull "settings.json" (exWorld (Sum.inl (exStore "")))).1
        = Outcome.fatal "write settings.json: no space left on device"
      ∧ Event.writeFile "settings.json" (exStore "abc123") 0o600
          (some "write settings.json: no space left on device")
          ∈ (login envDiskFull "settings.json" (exWorld (Sum.inl (exStore "")))).2.trace
      ∧ ((login envDiskFull "settings.json"
          (exWorld (Sum.inl (exStore "")))).2.trace.filter Event.isWrite).length = 1
      ∧ (exWorld (Sum.inl (exStore ""))).files "settings.json" = Sum.inl (exStore "")
      ∧ (login envDiskFull "settings.json" (exWorld (Sum.inl (exStore "")))).2.files
          "settings.json" = Sum.inl "" := by
  decide

/-- The run of C6 on the example: the settings hold an empty token. -/
theorem login_empty_token_requests_first_witness :
    (exSettings "").token = ""
      ∧ envOK.newRequestErr "POST" ((exSettings "").baseURL ++ "login/token.php") = none
      ∧ ∃ rest : List Event,
          (login envOK "settings.json" (exWorld (Sum.inl (exStore "")))).2.trace
            = [] ++ [Event.readFile "settings.json", Event.readFile "settings.json",
                Event.clientDo 10 (tokenRequest envOK (exSettings ""))
                  (envOK.clientDo () 10 (tokenRequest envOK (exSettings ""))).1] ++ rest :=
  ⟨rfl, rfl,
   (login_empty_token_requests_first envOK "settings.json" (exWorld (Sum.inl (exStore "")))
     (exSettings "") (by decide) rfl).2.1 rfl⟩

/-- C7, as stated, fails: the cached token `old` is rejected and so is the
token the site issues.  Both the run on the file with `old` and the run on
the file with an empty token end in the same fatal error, and each leaves
its file as it was: the final contents differ. -/
theorem login_stale_token_final_store_differs :
    (loadSettings envReject "settings.json" (exWorld (Sum.inl (exStore "old")))).token ≠ ""
      ∧ envReject.getSiteInfo () (NewMoodleApi "https://example.edu/" "old")
          = ((0, some "invalidtoken"), ())
      ∧ loadSettings envReject "settings.json" (exWorld (Sum.inl (exStore "")))
          = { loadSettings envReject "settings.json" (exWorld (Sum.inl (exStore "old")))
              with token := "" }
      ∧ (login envReject "settings.json" (exWorld (Sum.inl (exStore "old")))).1
          = Outcome.fatal "invalidtoken"
      ∧ (login envReject "settings.json" (exWorld (Sum.inl (exStore "")))).1
          = Outcome.fatal "invalidtoken"
      ∧ (login envReject "settings.json" (exWorld (Sum.inl (exStore "old")))).2.files
          "settings.json" = Sum.inl (exStore "old")
      ∧ (login envReject "settings.json" (exWorld (Sum.inl (exStore "")))).2.files
          "settings.json" = Sum.inl (exStore "")
      ∧ (login envReject "settings.json" (exWorld (Sum.inl (exStore "old")))).2.files
          "settings.json"
          ≠ (login envReject "settings.json" (exWorld (Sum.inl (exStore "")))).2.files
              "settings.json" := by
  decide

/-- The run of C7 (amended) on the example: the cached token `old` is
rejected, the site issues and accepts `abc123`; the outcome is that of the run
on the file with an empty token, and the settings file ends the same. -/
theorem login_stale_token_like_empty_witness :
    (login envOK "settings.json" (exWorld (Sum.inl (exStore "old")))).1
        = (login envOK "settings.json" (exWorld (Sum.inl (exStore "")))).1
      ∧ (login envOK "settings.json" (exWorld (Sum.inl (exStore "old")))).1
          = Outcome.ok { baseURL := "https://example.edu/", token := "abc123" }
      ∧ (login envOK "settings.json" (exWorld (Sum.inl (exStore "old")))).2.files
          "settings.json"
          = (login envOK "settings.json" (exWorld (Sum.inl (exStore "")))).2.files
              "settings.json" :=
  have h := login_stale_token_like_empty envOK "settings.json"
    (exWorld (Sum.inl (exStore "old"))) (exWorld (Sum.inl (exStore "")))
    (exSettings "old") 0 "invalidtoken" () (by decide) (by decide) (by decide) (by decide) rfl
  ⟨h.2.1, by decide,
   h.2.2.2.elim fun _ hevs =>
     hevs.2.2.2 { baseURL := "https://example.edu/", token := "abc123" } (by decide)⟩

/-- C8, as stated, fails.  A settings file whose `password` is a number does
not decode without error, and `login` validates the token it holds and
returns a client.  A settings file that cannot be read makes `login` send the
token request. -/
theorem login_bad_store_goes_on :
    (envOK.jsonUnmarshalSettings mistypedStore).2 ≠ none
      ∧ login envOK "settings.json" (exWorld (Sum.inl mistypedStore))
          = (Outcome.ok { baseURL := "https://example.edu/", token := "abc123" },
             { files := (exWorld (Sum.inl mistypedStore)).files, remote := (),
               trace := [Event.readFile "settings.json",
                 Event.getSiteInfo { baseURL := "https://example.edu/", token := "abc123" }
                   42 none] })
      ∧ (ioutilReadFile "settings.json"
          (exWorld (Sum.inr "open settings.json: no such file or directory"))).1.2 ≠ none
      ∧ (login envOK "settings.json"
          (exWorld (Sum.inr "open settings.json: no such file or directory"))).2.trace
          = [Event.readFile "settings.json", Event.readFile "settings.json",
              Event.clientDo 10
                { method := "POST"
                  url := "login/token.php"
                  body := "password=&service=moodle_mobile_app&username="
                  header := [("User-Agent", "Moodle Downloader/0.0.1"),
                             ("Content-Type", "application/x-www-form-urlencoded")] }
                (Sum.inr "unsupported protocol scheme")] := by
  refine ⟨by decide, Prod.ext (by decide) rfl, by decide, by decide⟩

/-- The run of C8 (amended) on the example: a settings file that cannot be
read is handled as a file that holds an empty JSON object. -/
theorem login_ignores_load_errors_witness :
    (ioutilReadFile "settings.json"
        (exWorld (Sum.inr "open settings.json: no such file or directory"))).1.2 ≠ none
      ∧ (envOK.jsonUnmarshalSettings "\x7b\x7d").2 = none
      ∧ (login envOK "settings.json"
          (exWorld (Sum.inr "open settings.json: no such file or directory"))).1
          = (login envOK "settings.json" (exWorld (Sum.inl "\x7b\x7d"))).1 :=
  ⟨by decide, by decide,
   (login_ignores_load_errors envOK "settings.json"
     (exWorld (Sum.inr "open settings.json: no such file or directory"))
     (exWorld (Sum.inl "\x7b\x7d")) (by decide) rfl).2.1⟩

/-- C9, as stated, fails: the site issues `abc123` and accepts it, the write
of the settings file fails, and neither `renewToken` returns the token nor
`login` a client: both end in the fatal error of the write. -/
theorem renewToken_write_failure_no_token :
    Event.getSiteInfo { baseURL := "https://example.edu/", token := "abc123" } 42 none
        ∈ (renewToken envWriteFail "settings.json" (exWorld (Sum.inl (exStore "")))).2.trace
      ∧ Event.writeFile "settings.json" (exStore "abc123") 0o600
          (some "open settings.json: permission denied")
          ∈ (renewToken envWriteFail "settings.json" (exWorld (Sum.inl (exStore "")))).2.trace
      ∧ (renewToken envWriteFail "settings.json" (exWorld (Sum.inl (exStore "")))).1
          = Outcome.fatal "open settings.json: permission denied"
      ∧ (renewToken envWriteFail "settings.json" (exWorld (Sum.inl (exStore "")))).1
          ≠ Outcome.ok "abc123"
      ∧ (login envWriteFail "settings.json" (exWorld (Sum.inl (exStore "")))).1
          = Outcome.fatal "open settings.json: permission denied"
      ∧ (login envWriteFail "settings.json" (exWorld (Sum.inl (exStore "")))).1
          ≠ Outcome.ok { baseURL := "https://example.edu/", token := "abc123" } := by
  decide

/-- C10, as stated, fails: the site answers the token request with status 500
and a body that decodes; `renewToken` validates the token of that body, writes
the settings file and returns the token. -/
theorem renewToken_status_500_accepted :
    (renewToken envStatus500 "settings.json" (exWorld (Sum.inl (exStore "")))).1
        = Outcome.ok "abc123"
      ∧ (renewToken envStatus500 "settings.json" (exWorld (Sum.inl (exStore "")))).2.trace
          = [Event.readFile "settings.json",
              Event.clientDo 10 exRequest
                (Sum.inl { statusCode := 500, readAll := (tokenBody "abc123", none) }),
              Event.getSiteInfo { baseURL := "https://example.edu/", token := "abc123" } 42 none,
              Event.writeFile "settings.json" (exStore "abc123") 0o600 none]
      ∧ (renewToken envStatus500 "settings.json" (exWorld (Sum.inl (exStore "")))).2.files
          "settings.json" = Sum.inl (exStore "abc123") := by
  decide

/-- The run of C10 (amended) on the example: the site answers with an HTML
page, which does not decode; and with status 200 in place of 500 the
renewal of `envStatus500` returns the same token. -/
theorem renewToken_bad_response_fatal_witness :
    (envBadGateway.clientDo () 10 (tokenRequest envBadGateway (exSettings ""))).1
        = Sum.inl { statusCode := 502, readAll := ("<html>Bad Gateway</html>", none) }
      ∧ (renewToken envBadGateway "settings.json" (exWorld (Sum.inl (exStore "")))).1
          = Outcome.fatal "invalid character '<' looking for beginning of value"
      ∧ (renewToken envBadGateway "settings.json" (exWorld (Sum.inl (exStore "")))).2.files
          = (exWorld (Sum.inl (exStore ""))).files
      ∧ (renewToken (envStatus500.mapStatus (fun _ => 200)) "settings.json"
          (exWorld (Sum.inl (exStore "")))).1
          = (renewToken envStatus500 "settings.json" (exWorld (Sum.inl (exStore "")))).1 :=
  have h := (renewToken_bad_response_fatal envBadGateway "settings.json"
    (exWorld (Sum.inl (exStore "")))).1 (exSettings "")
    "invalid character '<' looking for beginning of value" (by decide) rfl
    (Or.inr ⟨{ statusCode := 502, readAll := ("<html>Bad Gateway</html>", none) },
      by decide, Or.inr ⟨rfl, by decide⟩⟩)
  ⟨by decide,
   h.elim fun _ hevs => by rw [hevs.1],
   h.elim fun _ hevs => by rw [hevs.1],
   ((renewToken_bad_response_fatal envStatus500 "settings.json"
      (exWorld (Sum.inl (exStore "")))).2 (fun _ => 200)).elim fun _ hevs => hevs.2.2.1⟩

end MoodleTryouts
